import Mathlib

/-!
Verification of the HCC extractor pipeline specification against a shallow
embedding of the source code.

Each definition embeds one Python function or data model of the repository;
the file's doc comments name the embedded source location.  Python floats
are modelled by `Flt` (a rational or NaN), Python JSON-ish dynamic values by
`JVal`, Python dicts by association lists with first-match lookup and
Python-dict update/merge semantics.
-/

namespace HCCX

/-- Model of a Python float as used by the pipeline: either NaN or a rational
value.  Only NaN-ness and ordering comparisons matter to the code. -/
inductive Flt where
  | nan : Flt
  | num : ℚ → Flt
deriving DecidableEq, Repr

/-- Python `f >= c` for a float `f` and rational constant `c`:
NaN compares false. -/
def Flt.geq : Flt → ℚ → Bool
  | .nan, _ => false
  | .num x, c => decide (c ≤ x)

/-- Python `a + b` on floats: NaN is absorbing. -/
def Flt.add : Flt → Flt → Flt
  | .nan, _ => .nan
  | _, .nan => .nan
  | .num a, .num b => .num (a + b)

/-- Python `f / n` for a float and a positive int: NaN propagates. -/
def Flt.divNat : Flt → Nat → Flt
  | .nan, _ => .nan
  | .num a, n => .num (a / (n : ℚ))

/-- JSON-ish dynamic value: models the `Any`-typed data the services pass
around (pydantic model dumps, metadata dicts, artifact JSON).  Python ints
and floats are kept apart because NaN exists only for floats. -/
inductive JVal where
  | null : JVal
  | bool : Bool → JVal
  | intv : Int → JVal
  | num : Flt → JVal
  | str : String → JVal
  | arr : List JVal → JVal
  | obj : List (String × JVal) → JVal

/-- Python truthiness of a `JVal`. -/
def jtruthy : JVal → Bool
  | .null => false
  | .bool b => b
  | .intv n => decide (n ≠ 0)
  | .num .nan => true
  | .num (.num q) => decide (q ≠ 0)
  | .str s => decide (s ≠ "")
  | .arr xs => !xs.isEmpty
  | .obj kvs => !kvs.isEmpty

/-- Python `d.get(k)` on a dict modelled as an association list. -/
def lookupJ : List (String × JVal) → String → Option JVal
  | [], _ => none
  | kv :: rest, k => if kv.1 = k then some kv.2 else lookupJ rest k

/-- Python `k in d` on a dict modelled as an association list. -/
def containsKey : List (String × JVal) → String → Bool
  | [], _ => false
  | kv :: rest, k => if kv.1 = k then true else containsKey rest k

/-- Python `d[k] = v`: replace the binding in place if the key exists,
otherwise append it. -/
def dictSet (m : List (String × JVal)) (k : String) (v : JVal) :
    List (String × JVal) :=
  if containsKey m k then
    m.map (fun kv => if kv.1 = k then (k, v) else kv)
  else m ++ [(k, v)]

/-- Python `{**old, **new}`: keys of `old` keep their position (values
overridden by `new` where present), keys only in `new` are appended in
order. -/
def dictMerge (old upd : List (String × JVal)) : List (String × JVal) :=
  old.map (fun kv =>
    match lookupJ upd kv.1 with
    | some v => (kv.1, v)
    | none => kv) ++
  upd.filter (fun kv => !(containsKey old kv.1))

mutual
/-- Embeds `fix_nan_values` from
`services/analyzer/analyzer/graph/nodes.py`: recursively replace every NaN
float by `null` through dicts and lists. -/
def fixNan : JVal → JVal
  | .null => .null
  | .bool b => .bool b
  | .intv n => .intv n
  | .num .nan => .null
  | .num (.num q) => .num (.num q)
  | .str s => .str s
  | .arr xs => .arr (fixNanList xs)
  | .obj kvs => .obj (fixNanObj kvs)

/-- The `fix_nan_values` recursion on a list. -/
def fixNanList : List JVal → List JVal
  | [] => []
  | x :: xs => fixNan x :: fixNanList xs

/-- The `fix_nan_values` recursion on a dict. -/
def fixNanObj : List (String × JVal) → List (String × JVal)
  | [] => []
  | kv :: xs => (kv.1, fixNan kv.2) :: fixNanObj xs
end

/-- Python `code.replace(".", "")`. -/
def removeDots (s : String) : String :=
  String.mk (s.data.filter (fun c => c != '.'))

/-- The rational 0.7, given in lowest terms so that the kernel can reduce
comparisons against it. -/
def ratSevenTenths : ℚ := Rat.mk' 7 10 (by decide) (by decide)

/-- The rational 0.8 in lowest terms. -/
def ratFourFifths : ℚ := Rat.mk' 4 5 (by decide) (by decide)

/-- The rational 0.9 in lowest terms. -/
def ratNineTenths : ℚ := Rat.mk' 9 10 (by decide) (by decide)

/-- Python `s.lower()` for the ASCII strings the pipeline compares. -/
def lowerStr (s : String) : String :=
  String.mk (s.data.map Char.toLower)

/-- One row of the `HCC_relevant_codes.csv` reference table, with columns
`ICD-10-CM Codes`, `Description`, `Tags`. -/
structure HCCRow where
  icd_code : String
  description : String
  tags : String
deriving DecidableEq, Repr

/-- The undotted code set built by `HCCCodeManager.load_hcc_codes` in
`services/extractor/extractor/utils/hcc_utils.py`: each raw code is
whitespace-stripped and its dots removed. -/
def managerCodes (rows : List HCCRow) : List String :=
  rows.map (fun r => removeDots r.icd_code.trim)

/-- Embeds `HCCCodeManager.is_hcc_relevant`
(`services/extractor/extractor/utils/hcc_utils.py`): falsy codes are not
relevant; otherwise the code is normalized by removing dots and looked up in
the undotted code set. -/
def managerIsHccRelevant (rows : List HCCRow) (code : String) : Bool :=
  if code = "" then false
  else (managerCodes rows).contains (removeDots code)

/-- Embeds `CodeRepository.is_hcc_relevant`
(`services/validator/validator/data/code_repository.py`): membership of the
raw (unnormalized) code among the raw CSV codes that key `icd_to_index`. -/
def repoIsHccRelevant (rows : List HCCRow) (code : String) : Bool :=
  rows.any (fun r => r.icd_code == code)

/-- Python dict built by comprehension/zip over the CSV rows keyed by the
raw code: on duplicate keys the last row wins. -/
def hccDictFind (rows : List HCCRow) (k : String) : Option HCCRow :=
  rows.foldl (fun acc r => if r.icd_code = k then some r else acc) none

/-- Python `k in hcc_code_dict` for the raw-keyed reference dict. -/
def hccDictMember (rows : List HCCRow) (k : String) : Bool :=
  rows.any (fun r => r.icd_code == k)

/-- The `Condition` pydantic model shared by
`services/analyzer/analyzer/models/condition.py` and
`services/validator/app/models/condition.py` (identical field lists). -/
structure Condition where
  id : String
  name : String
  icd_code : Option String
  icd_description : Option String
  details : Option String
  hcc_relevant : Bool
  hcc_code : Option String
  hcc_category : Option String
  confidence : Flt
  reasoning : Option String
  metadata : List (String × JVal)

/-- The `ValidationRule` pydantic model: the result of applying one rule. -/
structure ValidationRule where
  rule_id : String
  description : String
  passed : Bool
deriving DecidableEq, Repr

/-- The `ValidatedCondition` pydantic model: a `Condition` extended with the
compliance verdict and per-rule results. -/
structure ValidatedCondition extends Condition where
  is_compliant : Bool
  validation_results : List ValidationRule

/-- The `AnalysisResult` pydantic model. -/
structure AnalysisResult where
  document_id : String
  conditions : List Condition
  metadata : List (String × JVal)
  errors : List String

/-- The `ValidationResult` pydantic model. -/
structure ValidationResult where
  document_id : String
  conditions : List ValidatedCondition
  metadata : List (String × JVal)

/-- One registered rule of the rules engine
(`services/validator/app/validator/rules_engine.py`): id, description and
predicate.  A predicate that raises is modelled as returning `.error`. -/
structure RuleInfo (α : Type) where
  rule_id : String
  description : String
  validator : α → Except String Bool

/-- Embeds `RulesEngine.register_rule`: the registry is a Python dict keyed
by `rule_id`, so re-registering an id replaces the entry in place and a new
id is appended. -/
def registerRule {α : Type} (rules : List (RuleInfo α)) (r : RuleInfo α) :
    List (RuleInfo α) :=
  if rules.any (fun x => x.rule_id == r.rule_id) then
    rules.map (fun x => if x.rule_id = r.rule_id then r else x)
  else rules ++ [r]

/-- Embeds `RulesEngine.evaluate`
(`services/validator/app/validator/rules_engine.py`): run every registered
predicate in registration order; a raising predicate counts as
`passed=false`; results carry the rule's id and description. -/
def evaluateRules {α : Type} (rules : List (RuleInfo α)) (c : α) :
    List ValidationRule :=
  rules.map (fun r =>
    { rule_id := r.rule_id
      description := r.description
      passed :=
        match r.validator c with
        | .ok b => b
        | .error _ => false })

/-- The `icd_to_description` lookup of `CodeRepository` (zip-built dict: last
duplicate key wins). -/
def getDescription (rows : List HCCRow) (code : String) : Option String :=
  (hccDictFind rows code).map (fun r => r.description)

/-- Embeds `CodeRepository.is_valid_icd_code`: falsy codes are invalid;
then a format check (length at least 3, leading letter, remainder digits
once dots are removed), then membership among the raw CSV codes. -/
def isValidIcdCode (rows : List HCCRow) (code : String) : Bool :=
  if code = "" then false
  else
    let rest := removeDots (String.mk code.data.tail)
    if !(decide (3 ≤ code.length) &&
         (match code.data.head? with
          | some c => c.isAlpha
          | none => false) &&
         (!(rest = "") && rest.data.all Char.isDigit)) then false
    else repoIsHccRelevant rows code

/-- Embeds `CodeRepository.verify_code_description`: skip when either side
is falsy; unknown or falsy reference description fails; otherwise compare
case-insensitively. -/
def verifyCodeDescription (rows : List HCCRow) (code : String)
    (desc : Option String) : Bool :=
  if code = "" then true
  else
    match desc with
    | none => true
    | some d =>
      if d = "" then true
      else
        match getDescription rows code with
        | none => false
        | some rd =>
          if rd = "" then false
          else lowerStr rd == lowerStr d

/-- The four rules registered by `HCCValidator._register_rules`
(`services/validator/validator/validator/hcc_validator.py`), built through
`registerRule` to mirror registration order.  None of the four lambdas can
raise, so each predicate returns `.ok`. -/
def validatorRules (rows : List HCCRow) : List (RuleInfo Condition) :=
  registerRule (registerRule (registerRule (registerRule []
    { rule_id := "valid_icd_code"
      description := "Condition must have a valid ICD-10 code"
      validator := fun c =>
        .ok (match c.icd_code with
             | some code => isValidIcdCode rows code
             | none => false) })
    { rule_id := "hcc_relevance_verified"
      description := "HCC-relevant conditions must have a code in the HCC reference list"
      validator := fun c =>
        .ok (!c.hcc_relevant ||
             (c.hcc_code.isSome &&
              (match c.icd_code with
               | some code => repoIsHccRelevant rows code
               | none => false))) })
    { rule_id := "sufficient_confidence"
      description := "Confidence score must be at least 0.7 for inclusion"
      validator := fun c => .ok (c.confidence.geq ratSevenTenths) })
    { rule_id := "code_description_match"
      description := "ICD code and description must match"
      validator := fun c =>
        .ok (match c.icd_code with
             | none => true
             | some code => verifyCodeDescription rows code c.icd_description) }

/-- The per-condition body of `HCCValidator.validate`: evaluate all rules,
compliant iff every rule passed, copy the condition fields. -/
def validateCondition (rows : List HCCRow) (c : Condition) :
    ValidatedCondition :=
  let results := evaluateRules (validatorRules rows) c
  { toCondition := c
    is_compliant := results.all (fun r => r.passed)
    validation_results := results }

/-- Embeds `HCCValidator.validate`
(`services/validator/validator/validator/hcc_validator.py`): validate every
condition and assemble the result with the merged metadata counts. -/
def hccValidate (rows : List HCCRow) (r : AnalysisResult) : ValidationResult :=
  let vcs := r.conditions.map (validateCondition rows)
  { document_id := r.document_id
    conditions := vcs
    metadata :=
      dictMerge r.metadata
        [("total_conditions", .intv (vcs.length : Int)),
         ("compliant_conditions",
          .intv ((vcs.countP (fun c => c.is_compliant)) : Int)),
         ("non_compliant_conditions",
          .intv ((vcs.countP (fun c => !c.is_compliant)) : Int))] }

/-- The `ProcessingStatus` enum of
`services/api-gateway/app/db/models/document.py`. -/
inductive ProcessingStatus where
  | pending
  | extracting
  | analyzing
  | validating
  | completed
  | failed
deriving DecidableEq, Repr

/-- Position of a status along the forward pipeline sequence; `failed` is
the terminal error state outside the sequence. -/
def stageRank : ProcessingStatus → Nat
  | .pending => 0
  | .extracting => 1
  | .analyzing => 2
  | .validating => 3
  | .completed => 4
  | .failed => 5

/-- The mutable fields of the `documents` registry row, exactly the columns
of the `Document` model in
`services/api-gateway/app/db/models/document.py`.  There is no
`compliant_conditions` column. -/
structure DocumentRow where
  status : ProcessingStatus
  is_processed : Bool
  processing_started_at : Option Nat
  processing_completed_at : Option Nat
  total_conditions : Option Nat
  hcc_relevant_conditions : Option Nat
  extraction_result_path : Option String
  analysis_result_path : Option String
  validation_result_path : Option String
  errors : Option String
  patient_info : Option (List (String × JVal))
  metadata : List (String × JVal)

/-- Embeds `Document.update_status`
(`services/api-gateway/app/db/models/document.py`): set the status
unconditionally, keep truthy errors, stamp `processing_started_at` on the
first move to Extracting, stamp `processing_completed_at` and
`is_processed` on Completed/Failed.  There is no forward-only guard. -/
def updateStatus (d : DocumentRow) (s : ProcessingStatus)
    (errs : Option String) (now : Nat) : DocumentRow :=
  let d1 := { d with status := s }
  let d2 :=
    match errs with
    | some e => if e = "" then d1 else { d1 with errors := some e }
    | none => d1
  let d3 :=
    if s = .extracting ∧ d2.processing_started_at = none then
      { d2 with processing_started_at := some now }
    else d2
  if s = .completed ∨ s = .failed then
    { d3 with
      processing_completed_at := some now
      is_processed := decide (s = .completed) }
  else d3

/-- Python `if total_conditions is not None: self.total_conditions = ...` of
`Document.update_processing_results`. -/
def setTotalStep (d : DocumentRow) (total : Option Nat) : DocumentRow :=
  match total with
  | some t => { d with total_conditions := some t }
  | none => d

/-- Python `if hcc_relevant_conditions is not None: ...`. -/
def setHccStep (d : DocumentRow) (hcc : Option Nat) : DocumentRow :=
  match hcc with
  | some n => { d with hcc_relevant_conditions := some n }
  | none => d

/-- Python `if extraction_result_path:` (truthiness). -/
def setEpStep (d : DocumentRow) (ep : Option String) : DocumentRow :=
  match ep with
  | some p => if p = "" then d else { d with extraction_result_path := some p }
  | none => d

/-- Python `if analysis_result_path:` (truthiness). -/
def setApStep (d : DocumentRow) (ap : Option String) : DocumentRow :=
  match ap with
  | some p => if p = "" then d else { d with analysis_result_path := some p }
  | none => d

/-- Python `if validation_result_path:` (truthiness). -/
def setVpStep (d : DocumentRow) (vp : Option String) : DocumentRow :=
  match vp with
  | some p => if p = "" then d else { d with validation_result_path := some p }
  | none => d

/-- Python `if patient_info:` (truthiness, an empty dict is falsy). -/
def setPatientStep (d : DocumentRow)
    (pinfo : Option (List (String × JVal))) : DocumentRow :=
  match pinfo with
  | some v => if v.isEmpty then d else { d with patient_info := some v }
  | none => d

/-- Python `if metadata:` followed by the shallow merge of the existing
metadata with the update (last writer wins per key). -/
def mergeMetaStep (d : DocumentRow)
    (meta : Option (List (String × JVal))) : DocumentRow :=
  match meta with
  | some m =>
    if m.isEmpty then d else { d with metadata := dictMerge d.metadata m }
  | none => d

/-- Embeds `Document.update_processing_results`
(`services/api-gateway/app/db/models/document.py`): counters update on a
not-`None` check, the three paths plus `patient_info` and `metadata` on a
truthiness check, and `metadata` is shallow-merged last-writer-wins; the
seven guarded assignments run in the source's order. -/
def updateProcessingResults (d : DocumentRow)
    (total hcc : Option Nat) (ep ap vp : Option String)
    (pinfo : Option (List (String × JVal)))
    (meta : Option (List (String × JVal))) : DocumentRow :=
  mergeMetaStep
    (setPatientStep
      (setVpStep (setApStep (setEpStep (setHccStep (setTotalStep d total) hcc) ep) ap) vp)
      pinfo)
    meta

/-- Outcome of the reprocess endpoint: the updated row plus whether a
`document.uploaded` message was published and with which priority flag. -/
structure ReprocessResult where
  doc : DocumentRow
  publishedUploaded : Bool
  publishPriority : Bool

/-- Embeds the success path of `reprocess_document`
(`services/api-gateway/gateway/api/v1/endpoints/documents.py`): the
document status is reset to Pending through
`DocumentService.update_document_status`, which calls
`Document.update_status(db, PENDING)` with no errors, and a
`document.uploaded` message is re-published with `priority=True`.  No other
field of the row is touched. -/
def reprocessDocument (d : DocumentRow) (now : Nat) : ReprocessResult :=
  { doc := updateStatus d .pending none now
    publishedUploaded := true
    publishPriority := true }

/-- Argument record of `DatabaseUpdater.update_document_analysis_status`
(`services/analyzer/analyzer/db/database_integration.py`). -/
structure AnalyzerDbArgs where
  total_conditions : Option Nat
  hcc_relevant_conditions : Option Nat
  analysis_result_path : Option String
  status : Option ProcessingStatus
  extraction_result_path : Option String

/-- Embeds the analyzer's `update_document_analysis_status`: every
not-`None` argument is put into the UPDATE values; the status is written
unconditionally when present, with no forward-only guard and no timestamp
logic. -/
def analyzerDbUpdate (d : DocumentRow) (a : AnalyzerDbArgs) : DocumentRow :=
  let d1 :=
    match a.status with
    | some s => { d with status := s }
    | none => d
  let d2 :=
    match a.total_conditions with
    | some t => { d1 with total_conditions := some t }
    | none => d1
  let d3 :=
    match a.hcc_relevant_conditions with
    | some n => { d2 with hcc_relevant_conditions := some n }
    | none => d2
  let d4 :=
    match a.analysis_result_path with
    | some p => { d3 with analysis_result_path := some p }
    | none => d3
  match a.extraction_result_path with
  | some p => { d4 with extraction_result_path := some p }
  | none => d4

/-- Argument record of `DatabaseUpdater.update_document_validation_status`
(`services/validator/validator/db/database_integration.py`).  The function
accepts `compliant_conditions` but never adds it to the UPDATE values. -/
structure ValidatorDbArgs where
  compliant_conditions : Option Nat
  validation_result_path : Option String
  status : ProcessingStatus
  processing_completed_at : Option Nat

/-- Embeds the validator's `update_document_validation_status`: the values
dict holds the status, the result path when not `None`, `is_processed` when
the status is Completed, and the completion timestamp when not `None`.
`compliant_conditions` is dropped (and the row has no such column). -/
def validatorDbUpdate (d : DocumentRow) (a : ValidatorDbArgs) : DocumentRow :=
  let d1 := { d with status := a.status }
  let d2 :=
    match a.validation_result_path with
    | some p => { d1 with validation_result_path := some p }
    | none => d1
  let d3 :=
    if a.status = .completed then { d2 with is_processed := true } else d2
  match a.processing_completed_at with
  | some t => { d3 with processing_completed_at := some t }
  | none => d3

/-- Payload of a published `analysis.completed` message. -/
structure AnalysisCompletedMsg where
  document_id : String
  analysis_result_path : String
  hcc_relevant_conditions : Nat
deriving DecidableEq, Repr

/-- Observable outcome of one analyzer message handling: the registry
writes in order, the stored analysis artifact, and the published message. -/
structure AnalyzerOutcome where
  dbWrites : List AnalyzerDbArgs
  artifact : Option AnalysisResult
  published : Option AnalysisCompletedMsg

/-- Embeds `MessageConsumer._handle_extraction_completed`
(`services/analyzer/analyzer/message_consumer.py`), parameterized by the
pipeline's analysis result.  Falsy id or path: drop.  It first writes
status Analyzing together with the message's `total_conditions` and the
extraction path; a missing artifact (`result = none`) writes Failed; on
success it stores the artifact, writes the recomputed counters with status
Analyzing again, and publishes `analysis.completed`. -/
def handleExtractionCompleted (did xpath : Option String) (msgTotal : Nat)
    (result : Option AnalysisResult) : AnalyzerOutcome :=
  match did, xpath with
  | some d, some xp =>
    if d = "" ∨ xp = "" then
      { dbWrites := [], artifact := none, published := none }
    else
      let w1 : AnalyzerDbArgs :=
        { total_conditions := some msgTotal
          hcc_relevant_conditions := none
          analysis_result_path := none
          status := some .analyzing
          extraction_result_path := some xp }
      match result with
      | none =>
        { dbWrites :=
            [w1,
             { total_conditions := none, hcc_relevant_conditions := none
               analysis_result_path := none, status := some .failed
               extraction_result_path := none }]
          artifact := none
          published := none }
      | some r =>
        let hcc := r.conditions.countP (fun c => c.hcc_relevant)
        let out := d ++ "_analyzed.json"
        let w2 : AnalyzerDbArgs :=
          { total_conditions := some r.conditions.length
            hcc_relevant_conditions := some hcc
            analysis_result_path := some out
            status := some .analyzing
            extraction_result_path := none }
        { dbWrites := [w1, w2]
          artifact := some r
          published := some
            { document_id := d, analysis_result_path := out
              hcc_relevant_conditions := hcc } }
  | _, _ => { dbWrites := [], artifact := none, published := none }

/-- Payload of a published `validation.completed` message. -/
structure ValidationCompletedMsg where
  document_id : String
  validation_result_path : String
  compliant_conditions : Nat
  total_conditions : Nat
deriving DecidableEq, Repr

/-- Observable outcome of one validator message handling. -/
structure ValidatorOutcome where
  dbWrites : List ValidatorDbArgs
  storedArtifactPath : Option String
  storedArtifact : Option ValidationResult
  published : Option ValidationCompletedMsg

/-- Embeds `MessageConsumer._handle_analysis_completed`
(`services/validator/validator/message_consumer.py`).  Falsy id or path:
drop.  Otherwise it first writes status Validating; a missing artifact file
(`artifact = none`) writes Failed; a file that fails to parse into
`AnalysisResult` raises into the handler's catch, which writes Failed.  An
artifact with an empty conditions list makes the handler return right after
the Validating write: nothing is stored, no Completed write, nothing
published.  Otherwise it validates, stores the validation artifact, writes
Completed with the compliant count and the completion timestamp, and
publishes `validation.completed`. -/
def handleAnalysisCompleted (rows : List HCCRow)
    (did apath : Option String)
    (artifact : Option (Except String AnalysisResult)) (now : Nat) :
    ValidatorOutcome :=
  match did, apath with
  | some d, some ap =>
    if d = "" ∨ ap = "" then
      { dbWrites := [], storedArtifactPath := none, storedArtifact := none
        published := none }
    else
      let w1 : ValidatorDbArgs :=
        { compliant_conditions := none, validation_result_path := none
          status := .validating, processing_completed_at := none }
      let failedW : ValidatorDbArgs :=
        { compliant_conditions := none, validation_result_path := none
          status := .failed, processing_completed_at := none }
      match artifact with
      | none =>
        { dbWrites := [w1, failedW], storedArtifactPath := none
          storedArtifact := none, published := none }
      | some (.error _) =>
        { dbWrites := [w1, failedW], storedArtifactPath := none
          storedArtifact := none, published := none }
      | some (.ok r) =>
        if r.conditions.isEmpty then
          { dbWrites := [w1], storedArtifactPath := none
            storedArtifact := none, published := none }
        else
          let vres := hccValidate rows r
          let compliantCount := vres.conditions.countP (fun c => c.is_compliant)
          let outName := d ++ "_validated.json"
          let w2 : ValidatorDbArgs :=
            { compliant_conditions := some compliantCount
              validation_result_path := some outName
              status := .completed
              processing_completed_at := some now }
          { dbWrites := [w1, w2]
            storedArtifactPath := some outName
            storedArtifact := some vres
            published := some
              { document_id := d, validation_result_path := outName
                compliant_conditions := compliantCount
                total_conditions := vres.conditions.length } }
  | _, _ =>
    { dbWrites := [], storedArtifactPath := none, storedArtifact := none
      published := none }

/-- Python truthiness of an `Optional[str]`. -/
def optStrTruthy : Option String → Bool
  | none => false
  | some s => decide (s ≠ "")

/-- Python `icd_code in hcc_code_dict` for an `Optional[str]`: `None` is simply
not a key. -/
def optKeyMember (rows : List HCCRow) : Option String → Bool
  | none => false
  | some s => hccDictMember rows s

/-- The string content of a metadata value, when it holds a string.  The
pipeline only ever stores `icd_code_no_dot` as a string or leaves it
absent/null. -/
def jvalAsStr : Option JVal → Option String
  | some (.str s) => some s
  | _ => none

/-- Python truthiness of `metadata.get(...)`. -/
def optJTruthy : Option JVal → Bool
  | none => false
  | some v => jtruthy v

/-- Python `icd_code_no_dot in hcc_code_dict` for a metadata value: only a string
value can be a key. -/
def jvalKeyMember (rows : List HCCRow) : Option JVal → Bool
  | some (.str s) => hccDictMember rows s
  | _ => false

/-- Embeds the per-condition body of `determine_hcc_relevance`
(`services/analyzer/analyzer/graph/nodes.py`): the guard requires BOTH
`condition.icd_code` and `condition.metadata["icd_code_no_dot"]` to be
truthy AND one of them to be a key of the raw-keyed reference dict; on a
hit the dotted code's entry is preferred, `hcc_code` is set to the
metadata's undotted value, `hcc_category` to the entry's `Tags`,
`confidence` to 1.0; otherwise (or on the unreachable KeyError safeguard)
the condition is marked not relevant with confidence 0.8. -/
def determineOne (rows : List HCCRow) (c : Condition) : Condition :=
  let noDot := lookupJ c.metadata "icd_code_no_dot"
  if (optStrTruthy c.icd_code && optJTruthy noDot) &&
     (optKeyMember rows c.icd_code || jvalKeyMember rows noDot) then
    let info :=
      if optKeyMember rows c.icd_code then
        hccDictFind rows (c.icd_code.getD "")
      else
        match noDot with
        | some (.str s) => hccDictFind rows s
        | _ => none
    match info with
    | some row =>
      { c with
        hcc_relevant := true
        hcc_code := jvalAsStr noDot
        hcc_category := some row.tags
        confidence := .num 1
        reasoning := some
          ("Direct match with HCC-relevant code: " ++ c.icd_code.getD "") }
    | none =>
      { c with
        hcc_relevant := false
        hcc_code := none
        hcc_category := none
        confidence := .num ratFourFifths
        reasoning := some
          ("Code check resulted in KeyError for " ++ c.icd_code.getD "") }
  else
    { c with
      hcc_relevant := false
      hcc_code := none
      hcc_category := none
      confidence := .num ratFourFifths
      reasoning := some "No exact match with HCC-relevant codes in reference data" }

/-- Embeds `determine_hcc_relevance` over the whole condition list. -/
def determineHccRelevance (rows : List HCCRow) (conds : List Condition) :
    List Condition :=
  conds.map (determineOne rows)

/-- An `Optional[str]` field as a JSON value. -/
def optStr : Option String → JVal
  | some s => .str s
  | none => .null

/-- Python `condition.model_dump()` for the analyzer's `Condition` model. -/
def dumpCondition (c : Condition) : JVal :=
  .obj [("id", .str c.id), ("name", .str c.name),
        ("icd_code", optStr c.icd_code),
        ("icd_description", optStr c.icd_description),
        ("details", optStr c.details),
        ("hcc_relevant", .bool c.hcc_relevant),
        ("hcc_code", optStr c.hcc_code),
        ("hcc_category", optStr c.hcc_category),
        ("confidence", .num c.confidence),
        ("reasoning", optStr c.reasoning),
        ("metadata", .obj c.metadata)]

/-- Pydantic validation of an optional-string field: null or a string. -/
def asOptStr (k : String) (kvs : List (String × JVal)) :
    Except String (Option String) :=
  match lookupJ kvs k with
  | none => .ok none
  | some .null => .ok none
  | some (.str s) => .ok (some s)
  | some _ => .error (k ++ ": string expected")

/-- Pydantic construction `Condition(**fixed_dict)` for the analyzer's
`Condition` model: required string `id` and `name`, optional strings,
boolean `hcc_relevant` (default false), float `confidence` (default 0.0,
`None` REJECTED because the field is a plain `float`), dict `metadata`. -/
def mkCondition (v : JVal) : Except String Condition := do
  match v with
  | .obj kvs =>
    let i ←
      match lookupJ kvs "id" with
      | some (.str s) => .ok s
      | _ => .error "id: string required"
    let n ←
      match lookupJ kvs "name" with
      | some (.str s) => .ok s
      | _ => .error "name: string required"
    let icd ← asOptStr "icd_code" kvs
    let icdDesc ← asOptStr "icd_description" kvs
    let det ← asOptStr "details" kvs
    let rel ←
      match lookupJ kvs "hcc_relevant" with
      | none => .ok false
      | some (.bool b) => .ok b
      | some _ => .error "hcc_relevant: bool expected"
    let hcode ← asOptStr "hcc_code" kvs
    let hcat ← asOptStr "hcc_category" kvs
    let conf ←
      match lookupJ kvs "confidence" with
      | none => .ok (Flt.num 0)
      | some (.num f) => .ok f
      | some (.intv k) => .ok (Flt.num (k : ℚ))
      | some _ => .error "confidence: float expected"
    let reas ← asOptStr "reasoning" kvs
    let md ←
      match lookupJ kvs "metadata" with
      | none => .ok []
      | some (.obj m) => .ok m
      | some _ => .error "metadata: dict expected"
    .ok { id := i, name := n, icd_code := icd, icd_description := icdDesc
          details := det, hcc_relevant := rel, hcc_code := hcode
          hcc_category := hcat, confidence := conf, reasoning := reas
          metadata := md }
  | _ => .error "object expected"

/-- One step of the fallback loop in `finalize_analysis`: Python
`if hasattr(condition, key) and value is not None: setattr(...)`.  A null
value — in particular the null that `fix_nan_values` substituted for a NaN —
is skipped, so the original field keeps its value. -/
def setFieldIfNotNull (c : Condition) (kv : String × JVal) : Condition :=
  match kv with
  | (_, .null) => c
  | ("id", .str s) => { c with id := s }
  | ("name", .str s) => { c with name := s }
  | ("icd_code", .str s) => { c with icd_code := some s }
  | ("icd_description", .str s) => { c with icd_description := some s }
  | ("details", .str s) => { c with details := some s }
  | ("hcc_relevant", .bool b) => { c with hcc_relevant := b }
  | ("hcc_code", .str s) => { c with hcc_code := some s }
  | ("hcc_category", .str s) => { c with hcc_category := some s }
  | ("confidence", .num f) => { c with confidence := f }
  | ("reasoning", .str s) => { c with reasoning := some s }
  | ("metadata", .obj m) => { c with metadata := m }
  | _ => c

/-- The fallback branch of `finalize_analysis` when
`Condition(**fixed_dict)` raised: walk the fixed dict and set each
non-null value on the ORIGINAL condition object. -/
def fallbackFix (c : Condition) (fixed : JVal) : Condition :=
  match fixed with
  | .obj kvs => kvs.foldl setFieldIfNotNull c
  | _ => c

/-- Per-condition step of `finalize_analysis`
(`services/analyzer/analyzer/graph/nodes.py`): dump the condition, fix NaN
values, rebuild a fresh `Condition`; if the rebuild raises, record an error
entry and fall back to field-wise assignment of the non-null fixed values
onto the original condition. -/
def finalizeCondResult (c : Condition) : Condition × Option String :=
  let fixed := fixNan (dumpCondition c)
  match mkCondition fixed with
  | .ok c2 => (c2, none)
  | .error e =>
    (fallbackFix c fixed,
     some ("Error fixing NaN values in condition " ++ c.id ++ ": " ++ e))

/-- Python `sum(c.confidence for c in conditions)`. -/
def sumConf (cs : List Condition) : Flt :=
  cs.foldl (fun a c => a.add c.confidence) (Flt.num 0)

/-- The workflow state fields that `finalize_analysis` reads and writes. -/
structure AnalyzerState where
  document_id : String
  analyzed_conditions : List Condition
  errors : List String
  metadata : List (String × JVal)

/-- Embeds `finalize_analysis`
(`services/analyzer/analyzer/graph/nodes.py`): compute the aggregate
metadata, sanitize it with `fix_nan_values`, then fix every condition via
`finalizeCondResult`, collecting the fallback error messages. -/
def finalizeAnalysis (st : AnalyzerState) : AnalyzerState :=
  let conds := st.analyzed_conditions
  let total := conds.length
  let md : List (String × JVal) :=
    [("document_id", .str st.document_id),
     ("total_conditions", .intv (total : Int)),
     ("hcc_relevant_count",
      .intv ((conds.countP (fun c => c.hcc_relevant)) : Int)),
     ("high_confidence_count",
      .intv ((conds.countP (fun c => c.confidence.geq ratNineTenths)) : Int)),
     ("confidence_avg",
      if 0 < total then .num ((sumConf conds).divNat total) else .intv 0),
     ("error_count", .intv (st.errors.length : Int))]
  let md2 :=
    match fixNan (.obj md) with
    | .obj kvs => kvs
    | _ => md
  let fixedPairs := conds.map finalizeCondResult
  { st with
    metadata := md2
    analyzed_conditions := fixedPairs.map (fun p => p.1)
    errors := st.errors ++ fixedPairs.filterMap (fun p => p.2) }

/-- The extractor's `Condition` pydantic model
(`services/extractor/app/models/document.py`). -/
structure ExtCond where
  id : String
  name : String
  icd_code : Option String
  icd_description : Option String
  details : Option String
  confidence : Flt
  metadata : List (String × JVal)

/-- The extractor's `ExtractionResult` pydantic model. -/
structure ExtractionResult where
  document_id : String
  conditions : List ExtCond
  metadata : List (String × JVal)

/-- A raw condition dict as returned inside the LLM response's
`"conditions"` list. -/
structure RawCond where
  id : Option String
  name : Option String
  icd_code : Option String
  icd_description : Option String
  details : Option String
  confidence : Option Flt

/-- Embeds `LangChainGeminiClient.extract_conditions`
(`services/extractor/extractor/llm/client.py`): the whole LLM chain
invocation is wrapped in a catch-all; on success the parsed `"conditions"`
list is returned, on ANY exception the function logs and returns the empty
list.  An LLM failure therefore never escapes the client. -/
def clientExtractConditions (resp : Except String (List RawCond)) :
    List RawCond :=
  match resp with
  | .ok cs => cs
  | .error _ => []

/-- Embeds the conversion loop of `extract_llm_based`
(`services/extractor/app/graph/nodes.py`): each raw dict becomes a
`Condition` with positional default id, defaulted name/confidence and
`metadata = {"source": "llm"}`. -/
def convertLlmConds (raw : List RawCond) : List ExtCond :=
  raw.enum.map (fun p =>
    { id := p.2.id.getD ("llm-cond-" ++ toString (p.1 + 1))
      name := p.2.name.getD ""
      icd_code := p.2.icd_code
      icd_description := p.2.icd_description
      details := p.2.details
      confidence := p.2.confidence.getD (.num ratNineTenths)
      metadata := [("source", .str "llm")] })

/-- The per-rule-based-condition tagging of `merge_results`: the LLM
conditions whose lowercased name matches the rule condition's add
`also_found_by_llm` and `llm_confidence` tags (last match wins, as in the
source's loop over the rule-based name map). -/
def llmTagsFor (llm : List ExtCond) (c : ExtCond) : ExtCond :=
  llm.foldl (fun acc l =>
    if lowerStr l.name = lowerStr acc.name then
      let md1 := dictSet acc.metadata "also_found_by_llm" (.bool true)
      { acc with metadata := dictSet md1 "llm_confidence" (.num l.confidence) }
    else acc) c

/-- Embeds `merge_results` (`services/extractor/app/graph/nodes.py`): all
rule-based conditions first, tagged `extraction_method = "rule_based"` and
annotated when the LLM also found them; then the LLM conditions whose name
no rule-based condition shares, tagged `extraction_method = "llm_only"`. -/
def mergeResults (ruleBased llmBased : List ExtCond) : List ExtCond :=
  ruleBased.map (fun c =>
    llmTagsFor llmBased
      { c with metadata :=
          dictSet c.metadata "extraction_method" (.str "rule_based") }) ++
  (llmBased.filter (fun l =>
    !(ruleBased.any (fun c => lowerStr c.name == lowerStr l.name)))).map
    (fun l =>
      { l with metadata :=
          dictSet l.metadata "extraction_method" (.str "llm_only") })

/-- Embeds `create_result` (`services/extractor/app/graph/nodes.py`): the
artifact's metadata is a fresh dict with exactly these seven keys — there
is no `errors` key and nothing else ever adds one. -/
def createResult (docId source : String)
    (ruleBased llmBased merged : List ExtCond) : ExtractionResult :=
  { document_id := docId
    conditions := merged
    metadata :=
      [("source", .str source),
       ("total_conditions", .intv (merged.length : Int)),
       ("rule_based_count", .intv (ruleBased.length : Int)),
       ("llm_based_count", .intv (llmBased.length : Int)),
       ("unique_to_rules",
        .intv ((merged.countP (fun c =>
          match lookupJ c.metadata "extraction_method" with
          | some (.str s) => s == "rule_based"
          | _ => false)) : Int)),
       ("unique_to_llm",
        .intv ((merged.countP (fun c =>
          match lookupJ c.metadata "extraction_method" with
          | some (.str s) => s == "llm_only"
          | _ => false)) : Int)),
       ("found_by_both",
        .intv ((merged.countP (fun c =>
          optJTruthy (lookupJ c.metadata "also_found_by_llm"))) : Int))] }

/-- The extraction stage pipeline of `services/extractor/app/graph`
(preprocess → rule-based → LLM-based → merge → result), parameterized by
the already-computed rule-based conditions and by the LLM chain outcome,
which `clientExtractConditions` turns into a condition list. -/
def appExtractorPipeline (docId source : String) (ruleBased : List ExtCond)
    (llmResp : Except String (List RawCond)) : ExtractionResult :=
  let llmConds := convertLlmConds (clientExtractConditions llmResp)
  let merged := mergeResults ruleBased llmConds
  createResult docId source ruleBased llmConds merged

/-- Payload of a published `document.extraction.completed` message. -/
structure ExtractionCompletedMsg where
  document_id : String
  extraction_result_path : String
  total_conditions : Nat
deriving DecidableEq, Repr

/-- Observable outcome of one extractor message handling.  The consumer's
only registry UPDATE sets `total_conditions` and `doc_metadata`; it never
writes a status, which `dbStatusWrites` records. -/
structure ExtractorOutcome where
  dbTotalWrite : Option Nat
  dbStatusWrites : List ProcessingStatus
  artifact : Option ExtractionResult
  published : Option ExtractionCompletedMsg

/-- Embeds the success path of `_handle_document_uploaded`
(`services/extractor/extractor/message_consumer.py`) after the stage
produced its result: update the row's `total_conditions` (no status
column), store the artifact, publish `document.extraction.completed`. -/
def extractorHandle (docId : String) (res : ExtractionResult) :
    ExtractorOutcome :=
  { dbTotalWrite := some res.conditions.length
    dbStatusWrites := []
    artifact := some res
    published := some
      { document_id := docId
        extraction_result_path := docId ++ "_extracted.json"
        total_conditions := res.conditions.length } }

/-!  Concrete values used by counterexamples and witnesses. -/

/-- A one-row reference table: the dotted code `E11.9` tagged `HCC19`. -/
def rowsEx : List HCCRow :=
  [{ icd_code := "E11.9"
     description := "Type 2 diabetes mellitus without complications"
     tags := "HCC19" }]

/-- A fully processed registry row. -/
def rowEx : DocumentRow :=
  { status := .completed
    is_processed := true
    processing_started_at := some 1
    processing_completed_at := some 2
    total_conditions := some 3
    hcc_relevant_conditions := some 2
    extraction_result_path := some "e.json"
    analysis_result_path := some "a.json"
    validation_result_path := some "v.json"
    errors := none
    patient_info := some [("name", .str "Jane Roe")]
    metadata := [("note", .str "kept")] }

/-- A condition with a dotted code that IS in `rowsEx`, but whose metadata
does not carry `icd_code_no_dot`. -/
def condEx : Condition :=
  { id := "cond-1"
    name := "Type 2 diabetes mellitus"
    icd_code := some "E11.9"
    icd_description := some "Type 2 diabetes mellitus without complications"
    details := some "Stable"
    hcc_relevant := false
    hcc_code := none
    hcc_category := none
    confidence := .num 1
    reasoning := none
    metadata := [] }

/-- Variant of `condEx` with the undotted code present in its metadata. -/
def condNdEx : Condition :=
  { condEx with metadata := [("icd_code_no_dot", .str "E119")] }

/-- A condition whose confidence is NaN. -/
def cNanEx : Condition :=
  { id := "cond-nan"
    name := "x"
    icd_code := none
    icd_description := none
    details := none
    hcc_relevant := false
    hcc_code := none
    hcc_category := none
    confidence := Flt.nan
    reasoning := none
    metadata := [] }

/-- Analyzer state holding the single NaN-confidence condition. -/
def stNanEx : AnalyzerState :=
  { document_id := "doc1"
    analyzed_conditions := [cNanEx]
    errors := []
    metadata := [] }

/-- An analysis artifact with an empty conditions list. -/
def arEmptyEx : AnalysisResult :=
  { document_id := "doc1", conditions := [], metadata := [], errors := [] }

/-- An analysis artifact with one condition. -/
def arOneEx : AnalysisResult :=
  { document_id := "doc1", conditions := [condNdEx], metadata := [], errors := [] }

/-- A rule that never raises. -/
def okRule : RuleInfo Condition :=
  { rule_id := "ok"
    description := "always true"
    validator := fun _ => .ok true }

/-- A rule whose predicate always raises. -/
def boomRule : RuleInfo Condition :=
  { rule_id := "raiser"
    description := "always raises"
    validator := fun _ => .error "boom" }

/-- A two-rule registry whose second rule raises. -/
def rulesEx : List (RuleInfo Condition) := [okRule, boomRule]

/-- A validator registry write carrying a compliant count. -/
def valWriteA : ValidatorDbArgs :=
  { compliant_conditions := some 5
    validation_result_path := some "v2.json"
    status := .completed
    processing_completed_at := some 9 }

/-- Variant of `valWriteA` with a different compliant count. -/
def valWriteB : ValidatorDbArgs :=
  { valWriteA with compliant_conditions := some 0 }

/-- A rule-based extractor condition. -/
def extCondEx : ExtCond :=
  { id := "cond-1"
    name := "Type 2 diabetes mellitus"
    icd_code := some "E11.9"
    icd_description := some "Type 2 diabetes mellitus without complications"
    details := some "Stable"
    confidence := .num 1
    metadata := [] }

/-!  Helper lemmas. -/

/-- Removing dots is idempotent. -/
theorem removeDots_removeDots (s : String) :
    removeDots (removeDots s) = removeDots s := by
  simp [removeDots, List.filter_filter]

/-- A key that is in no binding looks up to nothing. -/
theorem lookupJ_eq_none (m : List (String × JVal)) (k : String)
    (h : containsKey m k = false) : lookupJ m k = none := by
  induction m with
  | nil => rfl
  | cons kv rest ih =>
    by_cases hk : kv.1 = k
    · simp [containsKey, hk] at h
    · simp only [lookupJ, if_neg hk]
      exact ih (by simpa [containsKey, hk] using h)

/-- Looking a key up in an appended dict tries the left part first. -/
theorem lookupJ_append (a b : List (String × JVal)) (k : String) :
    lookupJ (a ++ b) k =
      (match lookupJ a k with
       | some v => some v
       | none => lookupJ b k) := by
  induction a with
  | nil => rfl
  | cons kv rest ih =>
    by_cases hk : kv.1 = k
    · simp [lookupJ, hk]
    · simp only [List.cons_append, lookupJ, if_neg hk]
      exact ih

/-- Filtering cannot introduce a key. -/
theorem containsKey_filter (m : List (String × JVal))
    (p : String × JVal → Bool) (k : String)
    (h : containsKey m k = false) : containsKey (m.filter p) k = false := by
  induction m with
  | nil => rfl
  | cons kv rest ih =>
    by_cases hk : kv.1 = k
    · simp [containsKey, hk] at h
    · have hr : containsKey rest k = false := by
        simpa [containsKey, hk] using h
      by_cases hp : p kv
      · simpa [List.filter_cons, hp, containsKey, hk] using ih hr
      · simpa [List.filter_cons, hp] using ih hr

/-- The override map of `dictMerge` keeps a key's value when the update has
no binding for that key. -/
theorem lookupJ_map_override (old upd : List (String × JVal)) (k : String)
    (h : containsKey upd k = false) :
    lookupJ (old.map (fun kv =>
      match lookupJ upd kv.1 with
      | some v => (kv.1, v)
      | none => kv)) k = lookupJ old k := by
  induction old with
  | nil => rfl
  | cons kv rest ih =>
    have hhd :
        (match lookupJ upd kv.1 with
         | some v => (kv.1, v)
         | none => kv).1 = kv.1 := by
      cases lookupJ upd kv.1 <;> rfl
    by_cases hk : kv.1 = k
    · have hupd : lookupJ upd kv.1 = none := by
        rw [hk]; exact lookupJ_eq_none upd k h
      simp only [List.map_cons, lookupJ, hhd, if_pos hk, hupd]
    · simp only [List.map_cons, lookupJ, hhd, if_neg hk]
      exact ih

/-- Merging bindings for other keys does not change a key's value. -/
theorem lookupJ_dictMerge (old upd : List (String × JVal)) (k : String)
    (h : containsKey upd k = false) :
    lookupJ (dictMerge old upd) k = lookupJ old k := by
  unfold dictMerge
  rw [lookupJ_append, lookupJ_map_override old upd k h,
    lookupJ_eq_none _ k (containsKey_filter upd _ k h)]
  cases lookupJ old k <;> rfl

/-- A key that the raw-keyed dict contains has an entry. -/
theorem hccDictFind_foldl_ne_none (rows : List HCCRow) (k : String)
    (acc : Option HCCRow)
    (h : acc ≠ none ∨ rows.any (fun r => r.icd_code == k) = true) :
    rows.foldl (fun a r => if r.icd_code = k then some r else a) acc ≠ none := by
  induction rows generalizing acc with
  | nil =>
    rcases h with h | h
    · exact h
    · simp [List.any_nil] at h
  | cons r rs ih =>
    simp only [List.foldl_cons]
    by_cases hr : r.icd_code = k
    · exact ih (if r.icd_code = k then some r else acc) (Or.inl (by simp [hr]))
    · refine ih _ ?_
      rcases h with h | h
      · exact Or.inl (by simpa [hr] using h)
      · refine Or.inr ?_
        simpa [List.any_cons, hr] using h

/-- Membership implies the dict lookup succeeds. -/
theorem hccDictFind_isSome_of_member (rows : List HCCRow) (k : String)
    (h : hccDictMember rows k = true) : (hccDictFind rows k).isSome = true := by
  have := hccDictFind_foldl_ne_none rows k none (Or.inr h)
  unfold hccDictFind
  cases hf : rows.foldl (fun a r => if r.icd_code = k then some r else a) none with
  | none => exact absurd hf this
  | some r => rfl

/-!  C4 — dot-form equivalence of the HCC lookups. -/

/-- C4: counterexample — the validator-side `CodeRepository.is_hcc_relevant`
keys its map by the raw dotted CSV code and does not normalize its argument,
so on the one-row table holding `E11.9` the dotted form is relevant while
the undotted form `E119` is not: the claimed dot-form equivalence fails for
that implementation. -/
theorem repo_dot_form_counterexample :
    repoIsHccRelevant rowsEx "E11.9" = true ∧
    repoIsHccRelevant rowsEx (removeDots "E11.9") = false := by
  exact ⟨rfl, rfl⟩

/-- C4: amended — dot-form equivalence holds for the extractor-side
`HCCCodeManager.is_hcc_relevant`, which normalizes its argument by removing
dots (for every code whose undotted form is non-empty, in particular every
reference code); the validator-side `CodeRepository.is_hcc_relevant`
compares the raw argument against the raw dotted CSV keys and violates the
equivalence. -/
theorem manager_dot_form_equivalence (rows : List HCCRow) (code : String)
    (h : removeDots code ≠ "") :
    managerIsHccRelevant rows code =
      managerIsHccRelevant rows (removeDots code) := by
  have hne : code ≠ "" := by
    intro h0
    exact h (by rw [h0]; rfl)
  unfold managerIsHccRelevant
  rw [if_neg hne, if_neg h, removeDots_removeDots]

/-- C4: witness for the amended equivalence at the dotted code `E11.9`. -/
theorem manager_dot_form_equivalence_witness :
    removeDots "E11.9" ≠ "" ∧
    managerIsHccRelevant rowsEx "E11.9" =
      managerIsHccRelevant rowsEx (removeDots "E11.9") :=
  ⟨by decide, manager_dot_form_equivalence rowsEx "E11.9" (by decide)⟩

/-!  C7 — totality of the rules engine. -/

/-- C7: `RulesEngine.evaluate` returns exactly one result per registered
rule, in registration order, each carrying the rule's id and description,
and a raising predicate yields `passed = false`; `evaluate` itself is a
total function. -/
theorem rules_engine_evaluate_total {α : Type} (rules : List (RuleInfo α))
    (c : α) :
    (evaluateRules rules c).length = rules.length ∧
    (∀ i, ((evaluateRules rules c).get? i).map
        (fun r => (r.rule_id, r.description)) =
      (rules.get? i).map (fun r => (r.rule_id, r.description))) ∧
    (∀ i r e, rules.get? i = some r → r.validator c = .error e →
      ((evaluateRules rules c).get? i).map (fun r => r.passed) = some false) := by
  refine ⟨by simp [evaluateRules], ?_, ?_⟩
  · intro i
    show ((rules.map _).get? i).map _ = _
    rw [List.get?_map]
    cases rules.get? i <;> rfl
  · intro i r e hi he
    show ((rules.map _).get? i).map _ = _
    rw [List.get?_map, hi]
    show some (match r.validator c with | .ok b => b | .error _ => false) =
      some false
    rw [he]

/-- C7: witness — on a concrete two-rule registry whose second predicate
raises, `evaluate` returns two results and the second is `passed = false`
with the raising rule's id and description. -/
theorem rules_engine_evaluate_total_witness :
    (evaluateRules rulesEx condEx).length = rulesEx.length ∧
    ((evaluateRules rulesEx condEx).get? 1).map
        (fun r => (r.rule_id, r.description)) =
      (rulesEx.get? 1).map (fun r => (r.rule_id, r.description)) ∧
    ((evaluateRules rulesEx condEx).get? 1).map (fun r => r.passed) =
      some false := by
  obtain ⟨h1, h2, h3⟩ := rules_engine_evaluate_total rulesEx condEx
  exact ⟨h1, h2 1, h3 1 boomRule "boom" rfl rfl⟩

/-!  C2 — rule-based HCC determination. -/

/-- C2: counterexample — `determine_hcc_relevance` first requires BOTH
`icd_code` and the metadata's `icd_code_no_dot` to be truthy.  `condEx`
carries `icd_code = "E11.9"`, which IS a key of the reference dict built
from `rowsEx`, but has no `icd_code_no_dot` in its metadata, so the claim
("if either code is a key, mark relevant with confidence 1.0") demands
`hcc_relevant = true`; the code instead marks it not relevant with
confidence 0.8. -/
theorem determine_requires_both_codes_counterexample :
    hccDictMember rowsEx "E11.9" = true ∧
    condEx.icd_code = some "E11.9" ∧
    lookupJ condEx.metadata "icd_code_no_dot" = none ∧
    (determineOne rowsEx condEx).hcc_relevant = false ∧
    (determineOne rowsEx condEx).confidence = Flt.num ratFourFifths := by
  exact ⟨rfl, rfl, rfl, rfl, rfl⟩

/-- C2: amended — when BOTH the dotted `icd_code` and the metadata's
`icd_code_no_dot` are present and non-empty: if either is a key of the
raw-keyed HCC reference dict, the condition is marked `hcc_relevant = true`
with `hcc_code` set to the undotted metadata value, `hcc_category` to the
matching entry's `Tags` (the dotted code's entry preferred), confidence 1.0
and the `Direct match` reasoning; if neither is a key, it is marked
`hcc_relevant = false` with confidence 0.8 and the `No exact match`
reasoning.  (When either code is missing or empty, the condition falls into
the same not-relevant branch regardless of any key match.) -/
theorem determine_hcc_relevance_amended (rows : List HCCRow) (c : Condition)
    (code s : String) (hcode : c.icd_code = some code) (hc : code ≠ "")
    (hnd : lookupJ c.metadata "icd_code_no_dot" = some (.str s))
    (hs : s ≠ "") :
    (hccDictMember rows code = true →
      (determineOne rows c).hcc_relevant = true ∧
      (determineOne rows c).hcc_code = some s ∧
      (determineOne rows c).confidence = Flt.num 1 ∧
      (determineOne rows c).reasoning =
        some ("Direct match with HCC-relevant code: " ++ code) ∧
      (determineOne rows c).hcc_category =
        (hccDictFind rows code).map (fun r => r.tags)) ∧
    (hccDictMember rows code = false → hccDictMember rows s = true →
      (determineOne rows c).hcc_relevant = true ∧
      (determineOne rows c).hcc_code = some s ∧
      (determineOne rows c).confidence = Flt.num 1 ∧
      (determineOne rows c).hcc_category =
        (hccDictFind rows s).map (fun r => r.tags)) ∧
    (hccDictMember rows code = false → hccDictMember rows s = false →
      (determineOne rows c).hcc_relevant = false ∧
      (determineOne rows c).hcc_code = none ∧
      (determineOne rows c).hcc_category = none ∧
      (determineOne rows c).confidence = Flt.num ratFourFifths ∧
      (determineOne rows c).reasoning =
        some "No exact match with HCC-relevant codes in reference data") := by
  have htr : (optStrTruthy c.icd_code &&
      optJTruthy (lookupJ c.metadata "icd_code_no_dot")) = true := by
    rw [hcode, hnd]
    simp [optStrTruthy, optJTruthy, jtruthy, hc, hs]
  refine ⟨?_, ?_, ?_⟩
  · intro hmem
    have hkey : optKeyMember rows (some code) = true := hmem
    have hfind := hccDictFind_isSome_of_member rows code hmem
    obtain ⟨row, hrow⟩ := Option.isSome_iff_exists.mp hfind
    unfold determineOne
    rw [hnd, hcode]
    have hAll : ((optStrTruthy (some code) &&
        optJTruthy (some (JVal.str s))) &&
        (optKeyMember rows (some code) ||
         jvalKeyMember rows (some (JVal.str s)))) = true := by
      rw [hcode, hnd] at htr
      rw [htr, hkey]
      rfl
    rw [if_pos hAll, if_pos hkey]
    simp only [Option.getD_some]
    rw [hrow]
    exact ⟨rfl, rfl, rfl, rfl, rfl⟩
  · intro hmem hmem2
    have hkey : optKeyMember rows (some code) = false := hmem
    have hfind := hccDictFind_isSome_of_member rows s hmem2
    obtain ⟨row, hrow⟩ := Option.isSome_iff_exists.mp hfind
    unfold determineOne
    rw [hnd, hcode]
    have hAll : ((optStrTruthy (some code) &&
        optJTruthy (some (JVal.str s))) &&
        (optKeyMember rows (some code) ||
         jvalKeyMember rows (some (JVal.str s)))) = true := by
      rw [hcode, hnd] at htr
      rw [htr, hkey]
      show jvalKeyMember rows (some (JVal.str s)) = true
      exact hmem2
    rw [if_pos hAll, if_neg (by simp [hkey])]
    dsimp only
    rw [hrow]
    exact ⟨rfl, rfl, rfl, rfl⟩
  · intro hmem hmem2
    have hkey : optKeyMember rows (some code) = false := hmem
    unfold determineOne
    rw [hnd, hcode]
    have hAll : ((optStrTruthy (some code) &&
        optJTruthy (some (JVal.str s))) &&
        (optKeyMember rows (some code) ||
         jvalKeyMember rows (some (JVal.str s)))) = false := by
      simp [jvalKeyMember, hkey, hmem2]
    rw [if_neg (by simp [hAll])]
    exact ⟨rfl, rfl, rfl, rfl, rfl⟩

/-- C2: witness — on the one-row table and a condition carrying both code
forms, the dotted code hits and the condition is marked relevant with
`hcc_code = "E119"`, category `HCC19`, confidence 1.0. -/
theorem determine_hcc_relevance_amended_witness :
    (determineOne rowsEx condNdEx).hcc_relevant = true ∧
    (determineOne rowsEx condNdEx).hcc_code = some "E119" ∧
    (determineOne rowsEx condNdEx).confidence = Flt.num 1 ∧
    (determineOne rowsEx condNdEx).reasoning =
      some ("Direct match with HCC-relevant code: " ++ "E11.9") := by
  have h := determine_hcc_relevance_amended rowsEx condNdEx "E11.9" "E119"
    rfl (by decide) rfl (by decide)
  obtain ⟨h1, h2, h3, h4, _⟩ := h.1 rfl
  exact ⟨h1, h2, h3, h4⟩

/-!  C3 — the validator handler's terminal transition. -/

/-- C3: counterexample — on an `analysis.completed` message whose artifact
exists and parses but whose conditions list is empty, the handler returns
right after the Validating write: no validation artifact is stored, no
Completed write happens (so `processing_completed_at` is never stamped),
and no `document.validation.completed` is published — contradicting the
claim's "including when the artifact's conditions list is empty". -/
theorem validator_empty_conditions_counterexample :
    (handleAnalysisCompleted rowsEx (some "doc1") (some "a.json")
      (some (.ok arEmptyEx)) 7).storedArtifact = none ∧
    (handleAnalysisCompleted rowsEx (some "doc1") (some "a.json")
      (some (.ok arEmptyEx)) 7).storedArtifactPath = none ∧
    (handleAnalysisCompleted rowsEx (some "doc1") (some "a.json")
      (some (.ok arEmptyEx)) 7).published = none ∧
    ((handleAnalysisCompleted rowsEx (some "doc1") (some "a.json")
      (some (.ok arEmptyEx)) 7).dbWrites.map (fun w => w.status)) =
      [.validating] := by
  exact ⟨rfl, rfl, rfl, rfl⟩

/-- C3: amended — for every `analysis.completed` message carrying a
non-empty document id and result path whose artifact exists, parses, and
has a NON-EMPTY conditions list, the handler stores the validation
artifact, writes Validating and then Completed with
`processing_completed_at = now` and the compliant count passed along, and
publishes `document.validation.completed`; when the parsed conditions list
is empty it instead stops after the Validating write. -/
theorem validator_success_nonempty (rows : List HCCRow) (d ap : String)
    (r : AnalysisResult) (now : Nat)
    (hd : d ≠ "") (hap : ap ≠ "") (hne : r.conditions ≠ []) :
    (handleAnalysisCompleted rows (some d) (some ap) (some (.ok r))
        now).storedArtifact = some (hccValidate rows r) ∧
    (handleAnalysisCompleted rows (some d) (some ap) (some (.ok r))
        now).storedArtifactPath = some (d ++ "_validated.json") ∧
    ((handleAnalysisCompleted rows (some d) (some ap) (some (.ok r))
        now).dbWrites.map (fun w => w.status)) = [.validating, .completed] ∧
    ((handleAnalysisCompleted rows (some d) (some ap) (some (.ok r))
        now).dbWrites.map (fun w => w.processing_completed_at)) =
      [none, some now] ∧
    (handleAnalysisCompleted rows (some d) (some ap) (some (.ok r))
        now).published = some
      { document_id := d
        validation_result_path := d ++ "_validated.json"
        compliant_conditions :=
          (hccValidate rows r).conditions.countP (fun c => c.is_compliant)
        total_conditions := (hccValidate rows r).conditions.length } := by
  have hguard : ¬ (d = "" ∨ ap = "") := by
    rintro (h | h)
    · exact hd h
    · exact hap h
  have hemp : r.conditions.isEmpty = false := by
    cases hcl : r.conditions with
    | nil => exact absurd hcl hne
    | cons a l => rfl
  simp only [handleAnalysisCompleted]
  rw [if_neg hguard]
  rw [hemp]
  exact ⟨rfl, rfl, rfl, rfl, rfl⟩

/-- C3: witness — on the one-condition artifact `arOneEx` the handler
stores the validated artifact, writes Validating then Completed with the
timestamp, and publishes `validation.completed` with one compliant
condition out of one. -/
theorem validator_success_nonempty_witness :
    (handleAnalysisCompleted rowsEx (some "doc1") (some "a.json")
        (some (.ok arOneEx)) 7).storedArtifact =
      some (hccValidate rowsEx arOneEx) ∧
    ((handleAnalysisCompleted rowsEx (some "doc1") (some "a.json")
        (some (.ok arOneEx)) 7).dbWrites.map (fun w => w.status)) =
      [.validating, .completed] ∧
    (handleAnalysisCompleted rowsEx (some "doc1") (some "a.json")
        (some (.ok arOneEx)) 7).published = some
      { document_id := "doc1"
        validation_result_path := "doc1" ++ "_validated.json"
        compliant_conditions := 1
        total_conditions := 1 } := by
  have h := validator_success_nonempty rowsEx "doc1" "a.json" arOneEx 7
    (by decide) (by decide) (by simp [arOneEx])
  refine ⟨h.1, h.2.2.1, ?_⟩
  rw [h.2.2.2.2]
  rfl

/-!  C6 — monotonicity of status writes. -/

/-- C6: counterexample — the registry's status writes have no forward-only
guard: re-delivering an `extraction.completed` message for `rowEx`, whose
status is Completed, makes the analyzer handler's two writes set the status
(back) to Analyzing, which is strictly earlier in the pipeline sequence
than Completed, is not Failed, and is not the administrative Pending
reset. -/
theorem status_write_goes_backward_counterexample :
    rowEx.status = .completed ∧
    ((handleExtractionCompleted (some "doc1") (some "e.json") 1
        (some arOneEx)).dbWrites.map
      (fun w => (analyzerDbUpdate rowEx w).status)) =
      [.analyzing, .analyzing] ∧
    stageRank .analyzing < stageRank .completed ∧
    ProcessingStatus.analyzing ≠ ProcessingStatus.failed ∧
    ProcessingStatus.analyzing ≠ ProcessingStatus.pending := by
  exact ⟨rfl, rfl, by decide, by decide, by decide⟩

/-- C6: amended — the registry applies status writes unconditionally; in a
single-delivery in-order run (each stage message delivered exactly once
against the row it was produced for) the statuses observed — Pending at
upload, Analyzing twice from the analyzer, Validating then Completed from
the validator — are monotone along the pipeline sequence; but nothing
guards against re-delivery, and a stage message re-delivered after
Completed sets the status back (e.g. Completed to Analyzing). -/
theorem pipeline_status_trace_monotone (rows : List HCCRow)
    (d xp ap : String) (msgTotal now : Nat) (r : AnalysisResult)
    (hd : d ≠ "") (hx : xp ≠ "") (hap : ap ≠ "")
    (hne : r.conditions ≠ []) :
    List.Chain' (fun a b => stageRank a ≤ stageRank b)
      (.pending ::
        ((handleExtractionCompleted (some d) (some xp) msgTotal
            (some r)).dbWrites.filterMap (fun w => w.status) ++
         (handleAnalysisCompleted rows (some d) (some ap) (some (.ok r))
            now).dbWrites.map (fun w => w.status))) := by
  have hg1 : ¬ (d = "" ∨ xp = "") := by
    rintro (h | h)
    · exact hd h
    · exact hx h
  have hg2 : ¬ (d = "" ∨ ap = "") := by
    rintro (h | h)
    · exact hd h
    · exact hap h
  have hemp : r.conditions.isEmpty = false := by
    cases hcl : r.conditions with
    | nil => exact absurd hcl hne
    | cons a l => rfl
  have h1 : (handleExtractionCompleted (some d) (some xp) msgTotal
      (some r)).dbWrites.filterMap (fun w => w.status) =
      [.analyzing, .analyzing] := by
    simp only [handleExtractionCompleted]
    rw [if_neg hg1]
    rfl
  have h2 : (handleAnalysisCompleted rows (some d) (some ap) (some (.ok r))
      now).dbWrites.map (fun w => w.status) = [.validating, .completed] := by
    simp only [handleAnalysisCompleted]
    rw [if_neg hg2]
    rw [hemp]
    rfl
  rw [h1, h2]
  show List.Chain (fun a b => stageRank a ≤ stageRank b) .pending
    ([.analyzing, .analyzing] ++ [.validating, .completed])
  exact .cons (by decide) (.cons (by decide) (.cons (by decide)
    (.cons (by decide) .nil)))

/-- C6: witness — the monotone trace on concrete inputs. -/
theorem pipeline_status_trace_monotone_witness :
    List.Chain' (fun a b => stageRank a ≤ stageRank b)
      (.pending ::
        ((handleExtractionCompleted (some "doc1") (some "e.json") 1
            (some arOneEx)).dbWrites.filterMap (fun w => w.status) ++
         (handleAnalysisCompleted rowsEx (some "doc1") (some "a.json")
            (some (.ok arOneEx)) 7).dbWrites.map (fun w => w.status))) :=
  pipeline_status_trace_monotone rowsEx "doc1" "e.json" "a.json" 1 7 arOneEx
    (by decide) (by decide) (by decide) (by simp [arOneEx])

/-!  C1 — the Reprocess operation. -/

/-- C1: counterexample — reprocessing the fully populated row `rowEx` does
reset the status to Pending and re-publish `document.uploaded` with
priority, but the three result paths and the counters keep their values:
nothing is set to null.  (The row does not even have a
`compliant_conditions` column, so the claim's third counter cannot be
nulled.) -/
theorem reprocess_does_not_null_counterexample :
    (reprocessDocument rowEx 9).doc.status = .pending ∧
    (reprocessDocument rowEx 9).publishedUploaded = true ∧
    (reprocessDocument rowEx 9).doc.extraction_result_path = some "e.json" ∧
    (reprocessDocument rowEx 9).doc.analysis_result_path = some "a.json" ∧
    (reprocessDocument rowEx 9).doc.validation_result_path = some "v.json" ∧
    (reprocessDocument rowEx 9).doc.total_conditions = some 3 ∧
    (reprocessDocument rowEx 9).doc.hcc_relevant_conditions = some 2 := by
  exact ⟨rfl, rfl, rfl, rfl, rfl, rfl, rfl⟩

/-- C1: amended — for every document, Reprocess resets the status to
Pending and re-publishes `document.uploaded` with priority, and changes
NOTHING else: the result paths, the counters, the timestamps, the error
text, the patient info and the metadata all keep their previous values (the
registry row has only the two counters `total_conditions` and
`hcc_relevant_conditions`; no `compliant_conditions` column exists). -/
theorem reprocess_resets_only_status (d : DocumentRow) (now : Nat) :
    (reprocessDocument d now).doc.status = .pending ∧
    (reprocessDocument d now).publishedUploaded = true ∧
    (reprocessDocument d now).publishPriority = true ∧
    (reprocessDocument d now).doc.extraction_result_path =
      d.extraction_result_path ∧
    (reprocessDocument d now).doc.analysis_result_path =
      d.analysis_result_path ∧
    (reprocessDocument d now).doc.validation_result_path =
      d.validation_result_path ∧
    (reprocessDocument d now).doc.total_conditions = d.total_conditions ∧
    (reprocessDocument d now).doc.hcc_relevant_conditions =
      d.hcc_relevant_conditions ∧
    (reprocessDocument d now).doc.processing_started_at =
      d.processing_started_at ∧
    (reprocessDocument d now).doc.processing_completed_at =
      d.processing_completed_at ∧
    (reprocessDocument d now).doc.is_processed = d.is_processed ∧
    (reprocessDocument d now).doc.errors = d.errors ∧
    (reprocessDocument d now).doc.patient_info = d.patient_info ∧
    (reprocessDocument d now).doc.metadata = d.metadata := by
  exact ⟨rfl, rfl, rfl, rfl, rfl, rfl, rfl, rfl, rfl, rfl, rfl, rfl, rfl, rfl⟩

/-!  C8 — NaN sanitization in the analyzer's finalize step. -/

/-- C8: the failing input is an analyzer state whose single condition has
`confidence = NaN`.  `fix_nan_values` does replace NaN by null (second
conjunct) and the aggregate metadata is sanitized (`confidence_avg`, whose
mean over the NaN confidence is NaN, ends up null — third conjunct), but
the per-condition rebuild `Condition(**fixed_dict)` rejects
`confidence=None` (the field is a plain `float`), and the fallback loop
`if hasattr(condition, key) and value is not None: setattr(...)` skips the
very null that replaced the NaN, so the finalized condition still carries
`confidence = NaN` (first conjunct) — contradicting the claim, while the
recorded error message shows the fallback path was taken (fourth
conjunct). -/
theorem finalize_leaves_nan_in_condition :
    ((finalizeAnalysis stNanEx).analyzed_conditions.map
      (fun c => c.confidence)) = [Flt.nan] ∧
    fixNan (.num Flt.nan) = .null ∧
    lookupJ (finalizeAnalysis stNanEx).metadata "confidence_avg" =
      some .null ∧
    (finalizeAnalysis stNanEx).errors ≠ [] := by
  refine ⟨rfl, rfl, rfl, ?_⟩
  intro h
  exact List.noConfusion h

/-!  C9 — counter conservation. -/

/-- C9: counterexample — the validator's registry update drops the
compliant count wholesale: two writes that differ only in
`compliant_conditions` (5 versus 0) produce identical rows, so the claimed
"the validator writes compliant_conditions as a count over the validated
conditions" is false (the row schema has no `compliant_conditions` column
at all). -/
theorem validator_drops_compliant_counterexample :
    validatorDbUpdate rowEx valWriteA = validatorDbUpdate rowEx valWriteB ∧
    valWriteA.compliant_conditions ≠ valWriteB.compliant_conditions := by
  exact ⟨rfl, by decide⟩

/-- C9: amended — the analyzer's final results write stores
`total_conditions` as the length of the analyzed condition list and
`hcc_relevant_conditions` as the count of HCC-relevant conditions over the
SAME list, so after that write `hcc_relevant_conditions ≤ total_conditions`
holds on the row; the validator computes a compliant count but its registry
update discards the `compliant_conditions` argument (the row has no such
column), so no `compliant_conditions` value is ever persisted and the
claim's compliant clause concerns a field the registry never populates. -/
theorem counters_written_from_same_list (did xp : String) (msgTotal : Nat)
    (r : AnalysisResult) (d : DocumentRow) (hd : did ≠ "") (hx : xp ≠ "") :
    (∃ w1 w2,
      (handleExtractionCompleted (some did) (some xp) msgTotal
        (some r)).dbWrites = [w1, w2] ∧
      (analyzerDbUpdate d w2).total_conditions =
        some r.conditions.length ∧
      (analyzerDbUpdate d w2).hcc_relevant_conditions =
        some (r.conditions.countP (fun c => c.hcc_relevant)) ∧
      r.conditions.countP (fun c => c.hcc_relevant) ≤
        r.conditions.length) ∧
    (∀ d2 a, validatorDbUpdate d2 a =
      validatorDbUpdate d2 { a with compliant_conditions := none }) := by
  constructor
  · have hg : ¬ (did = "" ∨ xp = "") := by
      rintro (h | h)
      · exact hd h
      · exact hx h
    refine ⟨{ total_conditions := some msgTotal
              hcc_relevant_conditions := none
              analysis_result_path := none
              status := some .analyzing
              extraction_result_path := some xp },
            { total_conditions := some r.conditions.length
              hcc_relevant_conditions :=
                some (r.conditions.countP (fun c => c.hcc_relevant))
              analysis_result_path := some (did ++ "_analyzed.json")
              status := some .analyzing
              extraction_result_path := none },
            ?_, rfl, rfl, List.countP_le_length _⟩
    simp only [handleExtractionCompleted]
    rw [if_neg hg]
  · intro d2 a
    rfl

/-- C9: witness — applies the amended theorem at a concrete row and write
and exhibits the validator's compliant-dropping on `valWriteA`. -/
theorem counters_written_from_same_list_witness :
    ("doc1" : String) ≠ "" ∧
    validatorDbUpdate rowEx valWriteA =
      validatorDbUpdate rowEx { valWriteA with compliant_conditions := none } :=
  ⟨by decide,
   (counters_written_from_same_list "doc1" "e.json" 1 arOneEx rowEx
     (by decide) (by decide)).2 rowEx valWriteA⟩

/-!  C5 — extractor behaviour on LLM failure. -/

/-- C5: counterexample — on a run whose LLM chain raises, the produced
extraction artifact's metadata has exactly the seven fixed keys of
`create_result` and, in particular, NO `errors` key: the claimed
`llm_failed:` annotation is never written anywhere in the extractor (the
client only logs the exception and returns an empty list). -/
theorem extractor_no_llm_failed_annotation_counterexample :
    containsKey (appExtractorPipeline "doc1" "note.txt" [extCondEx]
      (.error "LLM unavailable")).metadata "errors" = false ∧
    lookupJ (appExtractorPipeline "doc1" "note.txt" [extCondEx]
      (.error "LLM unavailable")).metadata "errors" = none ∧
    ((appExtractorPipeline "doc1" "note.txt" [extCondEx]
      (.error "LLM unavailable")).metadata.map (fun kv => kv.1)) =
      ["source", "total_conditions", "rule_based_count", "llm_based_count",
       "unique_to_rules", "unique_to_llm", "found_by_both"] := by
  exact ⟨rfl, rfl, rfl⟩

/-- C5: amended — for every document whose LLM extraction call raises, the
stage still succeeds: the client swallows the exception and returns no
conditions, so the run is indistinguishable from an empty LLM answer; the
artifact holds exactly the rule-based conditions (tagged
`extraction_method = "rule_based"`); `document.extraction.completed` is
published; and the extractor performs no status write at all, so the
document never moves to Failed.  However, NO `llm_failed:` entry is
appended anywhere: the artifact metadata has no `errors` key (the failure
is only logged). -/
theorem extractor_llm_failure_degrades (docId source e : String)
    (rb : List ExtCond) :
    appExtractorPipeline docId source rb (.error e) =
      appExtractorPipeline docId source rb (.ok []) ∧
    (appExtractorPipeline docId source rb (.error e)).conditions =
      rb.map (fun c =>
        { c with metadata :=
            dictSet c.metadata "extraction_method" (.str "rule_based") }) ∧
    containsKey (appExtractorPipeline docId source rb
      (.error e)).metadata "errors" = false ∧
    (extractorHandle docId (appExtractorPipeline docId source rb
      (.error e))).published = some
      { document_id := docId
        extraction_result_path := docId ++ "_extracted.json"
        total_conditions := rb.length } ∧
    (extractorHandle docId (appExtractorPipeline docId source rb
      (.error e))).dbStatusWrites = [] := by
  have hconds : (appExtractorPipeline docId source rb (.error e)).conditions =
      rb.map (fun c =>
        { c with metadata :=
            dictSet c.metadata "extraction_method" (.str "rule_based") }) := by
    show mergeResults rb (convertLlmConds []) = _
    show mergeResults rb [] = _
    unfold mergeResults
    simp [llmTagsFor]
  have hlen : (appExtractorPipeline docId source rb
      (.error e)).conditions.length = rb.length := by
    rw [hconds, List.length_map]
  have hpub : (extractorHandle docId (appExtractorPipeline docId source rb
      (.error e))).published = some
      { document_id := docId
        extraction_result_path := docId ++ "_extracted.json"
        total_conditions := (appExtractorPipeline docId source rb
          (.error e)).conditions.length } := rfl
  refine ⟨rfl, hconds, rfl, ?_, rfl⟩
  rw [hpub, hlen]

/-!  Frame lemmas: each guarded assignment of
`Document.update_processing_results` leaves every other column unchanged. -/

/-- Step `setTotalStep` leaves `hcc_relevant_conditions` unchanged. -/
theorem setTotalStep_keeps_hcc (d : DocumentRow) (o : Option Nat) :
    (setTotalStep d o).hcc_relevant_conditions = d.hcc_relevant_conditions := by
  cases o <;> rfl

/-- Step `setTotalStep` leaves `extraction_result_path` unchanged. -/
theorem setTotalStep_keeps_ep (d : DocumentRow) (o : Option Nat) :
    (setTotalStep d o).extraction_result_path = d.extraction_result_path := by
  cases o <;> rfl

/-- Step `setTotalStep` leaves `analysis_result_path` unchanged. -/
theorem setTotalStep_keeps_ap (d : DocumentRow) (o : Option Nat) :
    (setTotalStep d o).analysis_result_path = d.analysis_result_path := by
  cases o <;> rfl

/-- Step `setTotalStep` leaves `validation_result_path` unchanged. -/
theorem setTotalStep_keeps_vp (d : DocumentRow) (o : Option Nat) :
    (setTotalStep d o).validation_result_path = d.validation_result_path := by
  cases o <;> rfl

/-- Step `setTotalStep` leaves `patient_info` unchanged. -/
theorem setTotalStep_keeps_patient (d : DocumentRow) (o : Option Nat) :
    (setTotalStep d o).patient_info = d.patient_info := by
  cases o <;> rfl

/-- Step `setTotalStep` leaves `metadata` unchanged. -/
theorem setTotalStep_keeps_metadata (d : DocumentRow) (o : Option Nat) :
    (setTotalStep d o).metadata = d.metadata := by
  cases o <;> rfl

/-- Step `setHccStep` leaves `total_conditions` unchanged. -/
theorem setHccStep_keeps_total (d : DocumentRow) (o : Option Nat) :
    (setHccStep d o).total_conditions = d.total_conditions := by
  cases o <;> rfl

/-- Step `setHccStep` leaves `extraction_result_path` unchanged. -/
theorem setHccStep_keeps_ep (d : DocumentRow) (o : Option Nat) :
    (setHccStep d o).extraction_result_path = d.extraction_result_path := by
  cases o <;> rfl

/-- Step `setHccStep` leaves `analysis_result_path` unchanged. -/
theorem setHccStep_keeps_ap (d : DocumentRow) (o : Option Nat) :
    (setHccStep d o).analysis_result_path = d.analysis_result_path := by
  cases o <;> rfl

/-- Step `setHccStep` leaves `validation_result_path` unchanged. -/
theorem setHccStep_keeps_vp (d : DocumentRow) (o : Option Nat) :
    (setHccStep d o).validation_result_path = d.validation_result_path := by
  cases o <;> rfl

/-- Step `setHccStep` leaves `patient_info` unchanged. -/
theorem setHccStep_keeps_patient (d : DocumentRow) (o : Option Nat) :
    (setHccStep d o).patient_info = d.patient_info := by
  cases o <;> rfl

/-- Step `setHccStep` leaves `metadata` unchanged. -/
theorem setHccStep_keeps_metadata (d : DocumentRow) (o : Option Nat) :
    (setHccStep d o).metadata = d.metadata := by
  cases o <;> rfl

/-- Step `setEpStep` leaves `total_conditions` unchanged. -/
theorem setEpStep_keeps_total (d : DocumentRow) (o : Option String) :
    (setEpStep d o).total_conditions = d.total_conditions := by
  cases o with
  | none => rfl
  | some p => by_cases h : p = "" <;> simp [setEpStep, h]

/-- Step `setEpStep` leaves `hcc_relevant_conditions` unchanged. -/
theorem setEpStep_keeps_hcc (d : DocumentRow) (o : Option String) :
    (setEpStep d o).hcc_relevant_conditions = d.hcc_relevant_conditions := by
  cases o with
  | none => rfl
  | some p => by_cases h : p = "" <;> simp [setEpStep, h]

/-- Step `setEpStep` leaves `analysis_result_path` unchanged. -/
theorem setEpStep_keeps_ap (d : DocumentRow) (o : Option String) :
    (setEpStep d o).analysis_result_path = d.analysis_result_path := by
  cases o with
  | none => rfl
  | some p => by_cases h : p = "" <;> simp [setEpStep, h]

/-- Step `setEpStep` leaves `validation_result_path` unchanged. -/
theorem setEpStep_keeps_vp (d : DocumentRow) (o : Option String) :
    (setEpStep d o).validation_result_path = d.validation_result_path := by
  cases o with
  | none => rfl
  | some p => by_cases h : p = "" <;> simp [setEpStep, h]

/-- Step `setEpStep` leaves `patient_info` unchanged. -/
theorem setEpStep_keeps_patient (d : DocumentRow) (o : Option String) :
    (setEpStep d o).patient_info = d.patient_info := by
  cases o with
  | none => rfl
  | some p => by_cases h : p = "" <;> simp [setEpStep, h]

/-- Step `setEpStep` leaves `metadata` unchanged. -/
theorem setEpStep_keeps_metadata (d : DocumentRow) (o : Option String) :
    (setEpStep d o).metadata = d.metadata := by
  cases o with
  | none => rfl
  | some p => by_cases h : p = "" <;> simp [setEpStep, h]

/-- Step `setApStep` leaves `total_conditions` unchanged. -/
theorem setApStep_keeps_total (d : DocumentRow) (o : Option String) :
    (setApStep d o).total_conditions = d.total_conditions := by
  cases o with
  | none => rfl
  | some p => by_cases h : p = "" <;> simp [setApStep, h]

/-- Step `setApStep` leaves `hcc_relevant_conditions` unchanged. -/
theorem setApStep_keeps_hcc (d : DocumentRow) (o : Option String) :
    (setApStep d o).hcc_relevant_conditions = d.hcc_relevant_conditions := by
  cases o with
  | none => rfl
  | some p => by_cases h : p = "" <;> simp [setApStep, h]

/-- Step `setApStep` leaves `extraction_result_path` unchanged. -/
theorem setApStep_keeps_ep (d : DocumentRow) (o : Option String) :
    (setApStep d o).extraction_result_path = d.extraction_result_path := by
  cases o with
  | none => rfl
  | some p => by_cases h : p = "" <;> simp [setApStep, h]

/-- Step `setApStep` leaves `validation_result_path` unchanged. -/
theorem setApStep_keeps_vp (d : DocumentRow) (o : Option String) :
    (setApStep d o).validation_result_path = d.validation_result_path := by
  cases o with
  | none => rfl
  | some p => by_cases h : p = "" <;> simp [setApStep, h]

/-- Step `setApStep` leaves `patient_info` unchanged. -/
theorem setApStep_keeps_patient (d : DocumentRow) (o : Option String) :
    (setApStep d o).patient_info = d.patient_info := by
  cases o with
  | none => rfl
  | some p => by_cases h : p = "" <;> simp [setApStep, h]

/-- Step `setApStep` leaves `metadata` unchanged. -/
theorem setApStep_keeps_metadata (d : DocumentRow) (o : Option String) :
    (setApStep d o).metadata = d.metadata := by
  cases o with
  | none => rfl
  | some p => by_cases h : p = "" <;> simp [setApStep, h]

/-- Step `setVpStep` leaves `total_conditions` unchanged. -/
theorem setVpStep_keeps_total (d : DocumentRow) (o : Option String) :
    (setVpStep d o).total_conditions = d.total_conditions := by
  cases o with
  | none => rfl
  | some p => by_cases h : p = "" <;> simp [setVpStep, h]

/-- Step `setVpStep` leaves `hcc_relevant_conditions` unchanged. -/
theorem setVpStep_keeps_hcc (d : DocumentRow) (o : Option String) :
    (setVpStep d o).hcc_relevant_conditions = d.hcc_relevant_conditions := by
  cases o with
  | none => rfl
  | some p => by_cases h : p = "" <;> simp [setVpStep, h]

/-- Step `setVpStep` leaves `extraction_result_path` unchanged. -/
theorem setVpStep_keeps_ep (d : DocumentRow) (o : Option String) :
    (setVpStep d o).extraction_result_path = d.extraction_result_path := by
  cases o with
  | none => rfl
  | some p => by_cases h : p = "" <;> simp [setVpStep, h]

/-- Step `setVpStep` leaves `analysis_result_path` unchanged. -/
theorem setVpStep_keeps_ap (d : DocumentRow) (o : Option String) :
    (setVpStep d o).analysis_result_path = d.analysis_result_path := by
  cases o with
  | none => rfl
  | some p => by_cases h : p = "" <;> simp [setVpStep, h]

/-- Step `setVpStep` leaves `patient_info` unchanged. -/
theorem setVpStep_keeps_patient (d : DocumentRow) (o : Option String) :
    (setVpStep d o).patient_info = d.patient_info := by
  cases o with
  | none => rfl
  | some p => by_cases h : p = "" <;> simp [setVpStep, h]

/-- Step `setVpStep` leaves `metadata` unchanged. -/
theorem setVpStep_keeps_metadata (d : DocumentRow) (o : Option String) :
    (setVpStep d o).metadata = d.metadata := by
  cases o with
  | none => rfl
  | some p => by_cases h : p = "" <;> simp [setVpStep, h]

/-- Step `setPatientStep` leaves `total_conditions` unchanged. -/
theorem setPatientStep_keeps_total (d : DocumentRow) (o : Option (List (String × JVal))) :
    (setPatientStep d o).total_conditions = d.total_conditions := by
  cases o with
  | none => rfl
  | some v => cases hv : v.isEmpty <;> simp [setPatientStep, hv]

/-- Step `setPatientStep` leaves `hcc_relevant_conditions` unchanged. -/
theorem setPatientStep_keeps_hcc (d : DocumentRow) (o : Option (List (String × JVal))) :
    (setPatientStep d o).hcc_relevant_conditions = d.hcc_relevant_conditions := by
  cases o with
  | none => rfl
  | some v => cases hv : v.isEmpty <;> simp [setPatientStep, hv]

/-- Step `setPatientStep` leaves `extraction_result_path` unchanged. -/
theorem setPatientStep_keeps_ep (d : DocumentRow) (o : Option (List (String × JVal))) :
    (setPatientStep d o).extraction_result_path = d.extraction_result_path := by
  cases o with
  | none => rfl
  | some v => cases hv : v.isEmpty <;> simp [setPatientStep, hv]

/-- Step `setPatientStep` leaves `analysis_result_path` unchanged. -/
theorem setPatientStep_keeps_ap (d : DocumentRow) (o : Option (List (String × JVal))) :
    (setPatientStep d o).analysis_result_path = d.analysis_result_path := by
  cases o with
  | none => rfl
  | some v => cases hv : v.isEmpty <;> simp [setPatientStep, hv]

/-- Step `setPatientStep` leaves `validation_result_path` unchanged. -/
theorem setPatientStep_keeps_vp (d : DocumentRow) (o : Option (List (String × JVal))) :
    (setPatientStep d o).validation_result_path = d.validation_result_path := by
  cases o with
  | none => rfl
  | some v => cases hv : v.isEmpty <;> simp [setPatientStep, hv]

/-- Step `setPatientStep` leaves `metadata` unchanged. -/
theorem setPatientStep_keeps_metadata (d : DocumentRow) (o : Option (List (String × JVal))) :
    (setPatientStep d o).metadata = d.metadata := by
  cases o with
  | none => rfl
  | some v => cases hv : v.isEmpty <;> simp [setPatientStep, hv]

/-- Step `mergeMetaStep` leaves `total_conditions` unchanged. -/
theorem mergeMetaStep_keeps_total (d : DocumentRow) (o : Option (List (String × JVal))) :
    (mergeMetaStep d o).total_conditions = d.total_conditions := by
  cases o with
  | none => rfl
  | some v => cases hv : v.isEmpty <;> simp [mergeMetaStep, hv]

/-- Step `mergeMetaStep` leaves `hcc_relevant_conditions` unchanged. -/
theorem mergeMetaStep_keeps_hcc (d : DocumentRow) (o : Option (List (String × JVal))) :
    (mergeMetaStep d o).hcc_relevant_conditions = d.hcc_relevant_conditions := by
  cases o with
  | none => rfl
  | some v => cases hv : v.isEmpty <;> simp [mergeMetaStep, hv]

/-- Step `mergeMetaStep` leaves `extraction_result_path` unchanged. -/
theorem mergeMetaStep_keeps_ep (d : DocumentRow) (o : Option (List (String × JVal))) :
    (mergeMetaStep d o).extraction_result_path = d.extraction_result_path := by
  cases o with
  | none => rfl
  | some v => cases hv : v.isEmpty <;> simp [mergeMetaStep, hv]

/-- Step `mergeMetaStep` leaves `analysis_result_path` unchanged. -/
theorem mergeMetaStep_keeps_ap (d : DocumentRow) (o : Option (List (String × JVal))) :
    (mergeMetaStep d o).analysis_result_path = d.analysis_result_path := by
  cases o with
  | none => rfl
  | some v => cases hv : v.isEmpty <;> simp [mergeMetaStep, hv]

/-- Step `mergeMetaStep` leaves `validation_result_path` unchanged. -/
theorem mergeMetaStep_keeps_vp (d : DocumentRow) (o : Option (List (String × JVal))) :
    (mergeMetaStep d o).validation_result_path = d.validation_result_path := by
  cases o with
  | none => rfl
  | some v => cases hv : v.isEmpty <;> simp [mergeMetaStep, hv]

/-- Step `mergeMetaStep` leaves `patient_info` unchanged. -/
theorem mergeMetaStep_keeps_patient (d : DocumentRow) (o : Option (List (String × JVal))) :
    (mergeMetaStep d o).patient_info = d.patient_info := by
  cases o with
  | none => rfl
  | some v => cases hv : v.isEmpty <;> simp [mergeMetaStep, hv]

/-!  C10 — `update_processing_results` can never clear a field. -/

/-- C10: every call to `Document.update_processing_results` leaves a
counter unchanged when its argument is `None`, leaves a path, the patient
info or the metadata unchanged when the argument is falsy (`None` or
empty), can never set a non-null counter or result path back to null (a
field is only ever assigned a not-`None`, truthy value), and under the
shallow metadata merge every key absent from the update keeps its prior
value. -/
theorem update_results_never_clears (d : DocumentRow)
    (total hcc : Option Nat) (ep ap vp : Option String)
    (pinfo meta : Option (List (String × JVal))) :
    (total = none →
      (updateProcessingResults d total hcc ep ap vp pinfo
        meta).total_conditions = d.total_conditions) ∧
    (hcc = none →
      (updateProcessingResults d total hcc ep ap vp pinfo
        meta).hcc_relevant_conditions = d.hcc_relevant_conditions) ∧
    (optStrTruthy ep = false →
      (updateProcessingResults d total hcc ep ap vp pinfo
        meta).extraction_result_path = d.extraction_result_path) ∧
    (optStrTruthy ap = false →
      (updateProcessingResults d total hcc ep ap vp pinfo
        meta).analysis_result_path = d.analysis_result_path) ∧
    (optStrTruthy vp = false →
      (updateProcessingResults d total hcc ep ap vp pinfo
        meta).validation_result_path = d.validation_result_path) ∧
    ((pinfo = none ∨ pinfo = some []) →
      (updateProcessingResults d total hcc ep ap vp pinfo
        meta).patient_info = d.patient_info) ∧
    ((meta = none ∨ meta = some []) →
      (updateProcessingResults d total hcc ep ap vp pinfo
        meta).metadata = d.metadata) ∧
    (d.total_conditions.isSome = true →
      (updateProcessingResults d total hcc ep ap vp pinfo
        meta).total_conditions.isSome = true) ∧
    (d.hcc_relevant_conditions.isSome = true →
      (updateProcessingResults d total hcc ep ap vp pinfo
        meta).hcc_relevant_conditions.isSome = true) ∧
    (d.extraction_result_path.isSome = true →
      (updateProcessingResults d total hcc ep ap vp pinfo
        meta).extraction_result_path.isSome = true) ∧
    (d.analysis_result_path.isSome = true →
      (updateProcessingResults d total hcc ep ap vp pinfo
        meta).analysis_result_path.isSome = true) ∧
    (d.validation_result_path.isSome = true →
      (updateProcessingResults d total hcc ep ap vp pinfo
        meta).validation_result_path.isSome = true) ∧
    (∀ k, (∀ m, meta = some m → containsKey m k = false) →
      lookupJ (updateProcessingResults d total hcc ep ap vp pinfo
        meta).metadata k = lookupJ d.metadata k) := by
  have cht : (updateProcessingResults d total hcc ep ap vp pinfo
      meta).total_conditions = (setTotalStep d total).total_conditions := by
    unfold updateProcessingResults
    rw [mergeMetaStep_keeps_total, setPatientStep_keeps_total,
      setVpStep_keeps_total, setApStep_keeps_total, setEpStep_keeps_total,
      setHccStep_keeps_total]
  have chh : (updateProcessingResults d total hcc ep ap vp pinfo
      meta).hcc_relevant_conditions =
      (setHccStep (setTotalStep d total) hcc).hcc_relevant_conditions := by
    unfold updateProcessingResults
    rw [mergeMetaStep_keeps_hcc, setPatientStep_keeps_hcc,
      setVpStep_keeps_hcc, setApStep_keeps_hcc, setEpStep_keeps_hcc]
  have hbh : (setTotalStep d total).hcc_relevant_conditions =
      d.hcc_relevant_conditions := setTotalStep_keeps_hcc d total
  have che : (updateProcessingResults d total hcc ep ap vp pinfo
      meta).extraction_result_path =
      (setEpStep (setHccStep (setTotalStep d total) hcc)
        ep).extraction_result_path := by
    unfold updateProcessingResults
    rw [mergeMetaStep_keeps_ep, setPatientStep_keeps_ep,
      setVpStep_keeps_ep, setApStep_keeps_ep]
  have hbe : (setHccStep (setTotalStep d total) hcc).extraction_result_path =
      d.extraction_result_path := by
    rw [setHccStep_keeps_ep, setTotalStep_keeps_ep]
  have cha : (updateProcessingResults d total hcc ep ap vp pinfo
      meta).analysis_result_path =
      (setApStep (setEpStep (setHccStep (setTotalStep d total) hcc) ep)
        ap).analysis_result_path := by
    unfold updateProcessingResults
    rw [mergeMetaStep_keeps_ap, setPatientStep_keeps_ap, setVpStep_keeps_ap]
  have hba : (setEpStep (setHccStep (setTotalStep d total) hcc)
      ep).analysis_result_path = d.analysis_result_path := by
    rw [setEpStep_keeps_ap, setHccStep_keeps_ap, setTotalStep_keeps_ap]
  have chv : (updateProcessingResults d total hcc ep ap vp pinfo
      meta).validation_result_path =
      (setVpStep (setApStep (setEpStep (setHccStep (setTotalStep d total)
        hcc) ep) ap) vp).validation_result_path := by
    unfold updateProcessingResults
    rw [mergeMetaStep_keeps_vp, setPatientStep_keeps_vp]
  have hbv : (setApStep (setEpStep (setHccStep (setTotalStep d total) hcc)
      ep) ap).validation_result_path = d.validation_result_path := by
    rw [setApStep_keeps_vp, setEpStep_keeps_vp, setHccStep_keeps_vp,
      setTotalStep_keeps_vp]
  have chp : (updateProcessingResults d total hcc ep ap vp pinfo
      meta).patient_info =
      (setPatientStep (setVpStep (setApStep (setEpStep (setHccStep
        (setTotalStep d total) hcc) ep) ap) vp) pinfo).patient_info := by
    unfold updateProcessingResults
    rw [mergeMetaStep_keeps_patient]
  have hbp : (setVpStep (setApStep (setEpStep (setHccStep (setTotalStep d
      total) hcc) ep) ap) vp).patient_info = d.patient_info := by
    rw [setVpStep_keeps_patient, setApStep_keeps_patient,
      setEpStep_keeps_patient, setHccStep_keeps_patient,
      setTotalStep_keeps_patient]
  have hbm : (setPatientStep (setVpStep (setApStep (setEpStep (setHccStep
      (setTotalStep d total) hcc) ep) ap) vp) pinfo).metadata =
      d.metadata := by
    rw [setPatientStep_keeps_metadata, setVpStep_keeps_metadata,
      setApStep_keeps_metadata, setEpStep_keeps_metadata,
      setHccStep_keeps_metadata, setTotalStep_keeps_metadata]
  have chm : (updateProcessingResults d total hcc ep ap vp pinfo
      meta).metadata =
      (mergeMetaStep (setPatientStep (setVpStep (setApStep (setEpStep
        (setHccStep (setTotalStep d total) hcc) ep) ap) vp) pinfo)
        meta).metadata := rfl
  refine ⟨?_, ?_, ?_, ?_, ?_, ?_, ?_, ?_, ?_, ?_, ?_, ?_, ?_⟩
  · intro h
    rw [cht, h]
    rfl
  · intro h
    rw [chh, h]
    exact hbh
  · intro h
    rw [che]
    cases ep with
    | none => exact hbe
    | some p =>
      have hp : p = "" := by
        simpa [optStrTruthy] using h
      simp [setEpStep, hp]
      exact hbe
  · intro h
    rw [cha]
    cases ap with
    | none => exact hba
    | some p =>
      have hp : p = "" := by
        simpa [optStrTruthy] using h
      simp [setApStep, hp]
      exact hba
  · intro h
    rw [chv]
    cases vp with
    | none => exact hbv
    | some p =>
      have hp : p = "" := by
        simpa [optStrTruthy] using h
      simp [setVpStep, hp]
      exact hbv
  · intro h
    rw [chp]
    rcases h with h | h
    · rw [h]
      exact hbp
    · rw [h]
      simp [setPatientStep]
      exact hbp
  · intro h
    rw [chm]
    rcases h with h | h
    · rw [h]
      exact hbm
    · rw [h]
      simp [mergeMetaStep]
      exact hbm
  · intro h
    rw [cht]
    cases total with
    | none => exact h
    | some t => rfl
  · intro h
    rw [chh]
    cases hcc with
    | none =>
      have hx : (setHccStep (setTotalStep d total)
          none).hcc_relevant_conditions = d.hcc_relevant_conditions := hbh
      rw [hx]
      exact h
    | some n => rfl
  · intro h
    rw [che]
    cases ep with
    | none =>
      have hx : (setEpStep (setHccStep (setTotalStep d total) hcc)
          none).extraction_result_path = d.extraction_result_path := hbe
      rw [hx]
      exact h
    | some p =>
      by_cases hp : p = ""
      · simp [setEpStep, hp]
        rw [hbe]
        exact h
      · simp [setEpStep, hp]
  · intro h
    rw [cha]
    cases ap with
    | none =>
      have hx : (setApStep (setEpStep (setHccStep (setTotalStep d total)
          hcc) ep) none).analysis_result_path = d.analysis_result_path := hba
      rw [hx]
      exact h
    | some p =>
      by_cases hp : p = ""
      · simp [setApStep, hp]
        rw [hba]
        exact h
      · simp [setApStep, hp]
  · intro h
    rw [chv]
    cases vp with
    | none =>
      have hx : (setVpStep (setApStep (setEpStep (setHccStep (setTotalStep
          d total) hcc) ep) ap) none).validation_result_path =
          d.validation_result_path := hbv
      rw [hx]
      exact h
    | some p =>
      by_cases hp : p = ""
      · simp [setVpStep, hp]
        rw [hbv]
        exact h
      · simp [setVpStep, hp]
  · intro k hk
    rw [chm]
    cases meta with
    | none =>
      have hx : (mergeMetaStep (setPatientStep (setVpStep (setApStep
          (setEpStep (setHccStep (setTotalStep d total) hcc) ep) ap) vp)
          pinfo) none).metadata = d.metadata := hbm
      rw [hx]
    | some m =>
      cases hm : m.isEmpty with
      | true =>
        simp [mergeMetaStep, hm]
        rw [hbm]
      | false =>
        simp only [mergeMetaStep, hm, Bool.false_eq_true, if_false]
        rw [hbm, lookupJ_dictMerge d.metadata m k (hk m rfl)]

/-- C10: witness — a call whose every argument is absent or falsy leaves
the fully populated row `rowEx` untouched, every non-null field stays
non-null, and the pre-existing metadata key `note` keeps its value. -/
theorem update_results_never_clears_witness :
    (updateProcessingResults rowEx none none (some "") none (some "")
      (some []) (some [])).total_conditions = rowEx.total_conditions ∧
    (updateProcessingResults rowEx none none (some "") none (some "")
      (some []) (some [])).extraction_result_path =
      rowEx.extraction_result_path ∧
    (updateProcessingResults rowEx none none (some "") none (some "")
      (some []) (some [])).patient_info = rowEx.patient_info ∧
    (updateProcessingResults rowEx none none (some "") none (some "")
      (some []) (some [])).metadata = rowEx.metadata ∧
    (updateProcessingResults rowEx none none (some "") none (some "")
      (some []) (some [])).validation_result_path.isSome = true ∧
    lookupJ (updateProcessingResults rowEx none none (some "") none
      (some "") (some []) (some [])).metadata "note" =
      lookupJ rowEx.metadata "note" := by
  have h := update_results_never_clears rowEx none none (some "") none
    (some "") (some []) (some [])
  refine ⟨h.1 rfl, h.2.2.1 rfl, ?_, ?_, ?_, ?_⟩
  · exact h.2.2.2.2.2.1 (Or.inr rfl)
  · exact h.2.2.2.2.2.2.1 (Or.inr rfl)
  · exact h.2.2.2.2.2.2.2.2.2.2.2.1 rfl
  · exact h.2.2.2.2.2.2.2.2.2.2.2.2 "note" (fun m hm => by
      cases hm
      rfl)

end HCCX
